import Mathlib

set_option maxRecDepth 40000

/-!
Verification of the core of a feature-flag evaluation client library
(evaluation engine, versioned in-memory data store, streaming update
processor) against its natural-language specification.

The JavaScript sources are shallowly embedded: JSON values become an
inductive type, JS objects become structures with `Option` fields
(`none` models an absent / `undefined` / `null` property where the code
distinguishes only presence), machine numbers become `Nat`/`Int`/`ℚ`,
and the mutable store becomes explicit state passing.
-/

/-- JSON-shaped values as they appear in flag variations, clause values and
user attributes.  JS numbers are modelled as rationals (`ℚ`); plain objects
other than arrays are not needed by any claim and are omitted. -/
inductive LDValue where
  | null : LDValue
  | bool (b : Bool) : LDValue
  | num (q : ℚ) : LDValue
  | str (s : String) : LDValue
  | arr (elems : List LDValue) : LDValue

/-- JS truthiness on the modelled value space: `null`, `false`, `0` and the
empty string are falsy, everything else (including every array) is truthy. -/
def ldTruthy : LDValue → Bool
  | .null => false
  | .bool b => b
  | .num q => q != 0
  | .str s => s != ""
  | .arr _ => true

/-- JS `ToString` restricted to the modelled value space.  Exact for strings,
booleans, `null` and integer-valued numbers (the only cases exercised by the
code paths under verification); non-integer numbers and arrays are rendered
approximately. -/
def jsToString : LDValue → String
  | .null => "null"
  | .bool b => if b then "true" else "false"
  | .num q => if q.den = 1 then toString q.num else toString q
  | .str s => s
  | .arr _ => ""

/-- JS strict equality `===` on the modelled value space.  Two distinct
array (object) references are never `===`-equal, and the flag data and the
user record never alias, so comparisons against an array are `false`. -/
def jsStrictEq : LDValue → LDValue → Bool
  | .null, .null => true
  | .bool a, .bool b => a == b
  | .num a, .num b => a == b
  | .str a, .str b => a == b
  | _, _ => false

/- ----------------------------------------------------------------- -/
/- SHA-1, required by the bucketing primitive (`crypto.createHash('sha1')`).
   Messages are byte lists; all inputs used by the code under test are
   ASCII strings, for which UTF-8 bytes coincide with code points.       -/
/- ----------------------------------------------------------------- -/

/-- Rotate a 32-bit word left by `s` bits (`0 ≤ s < 32`). -/
def rotl32 (s x : Nat) : Nat :=
  ((x % 2 ^ (32 - s)) * 2 ^ s) + (x / 2 ^ (32 - s))

/-- Big-endian bytes of `n`, written on `count` bytes. -/
def natToBytesBE (n count : Nat) : List Nat :=
  (List.range count).map (fun i => (n >>> (8 * (count - 1 - i))) % 256)

/-- SHA-1 message padding: append `0x80`, zero bytes up to 56 mod 64, then
the bit length on 8 bytes. -/
def sha1Pad (msg : List Nat) : List Nat :=
  let ml := msg.length
  let zeros := (119 - ml % 64) % 64
  msg ++ [0x80] ++ List.replicate zeros 0 ++ natToBytesBE (ml * 8) 8

/-- Group a byte list into big-endian 32-bit words (the input length is a
multiple of 4). -/
def bytesToWords : List Nat → List Nat
  | b0 :: b1 :: b2 :: b3 :: rest =>
      (((b0 * 256 + b1) * 256 + b2) * 256 + b3) :: bytesToWords rest
  | _ => []

/-- Split a padded message into 64-byte blocks (`fuel` bounds the number of
unconsumed bytes, keeping the recursion structural). -/
def toBlocksAux : Nat → List Nat → List (List Nat)
  | _, [] => []
  | 0, _ => []
  | f + 1, x :: xs => ((x :: xs).take 64) :: toBlocksAux f ((x :: xs).drop 64)

/-- Split a padded message into 64-byte blocks. -/
def toBlocks (l : List Nat) : List (List Nat) :=
  toBlocksAux l.length l

/-- Extend the 16 message words of a block to the 80 words of the SHA-1
message schedule (the argument counts the words still to produce; the next
index to fill is `w.size`). -/
def sha1Extend (w : Array Nat) : Nat → Array Nat
  | 0 => w
  | n + 1 =>
      let i := w.size
      sha1Extend
        (w.push (rotl32 1 (w.getD (i - 3) 0 ^^^ w.getD (i - 8) 0 ^^^
          w.getD (i - 14) 0 ^^^ w.getD (i - 16) 0))) n

/-- One SHA-1 compression round. -/
def sha1Step (w : Array Nat) (st : Nat × Nat × Nat × Nat × Nat) (i : Nat) :
    Nat × Nat × Nat × Nat × Nat :=
  let (a, b, c, d, e) := st
  let f :=
    if i < 20 then (b &&& c) ||| ((b ^^^ 0xffffffff) &&& d)
    else if i < 40 then b ^^^ c ^^^ d
    else if i < 60 then (b &&& c) ||| (b &&& d) ||| (c &&& d)
    else b ^^^ c ^^^ d
  let k :=
    if i < 20 then 0x5a827999
    else if i < 40 then 0x6ed9eba1
    else if i < 60 then 0x8f1bbcdc
    else 0xca62c1d6
  let temp := (rotl32 5 a + f + e + k + w.getD i 0) % 2 ^ 32
  (temp, a, rotl32 30 b, c, d)

/-- Process one 64-byte block. -/
def sha1Block (h : Nat × Nat × Nat × Nat × Nat) (block : List Nat) :
    Nat × Nat × Nat × Nat × Nat :=
  let w := sha1Extend (bytesToWords block).toArray 64
  let (h0, h1, h2, h3, h4) := h
  let (a, b, c, d, e) := (List.range 80).foldl (sha1Step w) (h0, h1, h2, h3, h4)
  ((h0 + a) % 2 ^ 32, (h1 + b) % 2 ^ 32, (h2 + c) % 2 ^ 32,
    (h3 + d) % 2 ^ 32, (h4 + e) % 2 ^ 32)

/-- SHA-1 digest of a byte list, as a 160-bit natural number. -/
def sha1 (msg : List Nat) : Nat :=
  let (h0, h1, h2, h3, h4) :=
    (toBlocks (sha1Pad msg)).foldl sha1Block
      (0x67452301, 0xefcdab89, 0x98badcfe, 0x10325476, 0xc3d2e1f0)
  (((h0 * 2 ^ 32 + h1) * 2 ^ 32 + h2) * 2 ^ 32 + h3) * 2 ^ 32 + h4

/-- Lowercase hex digit for `d < 16`. -/
def hexDigitChar (d : Nat) : Char :=
  Char.ofNat (if d < 10 then 48 + d else 87 + d)

/-- The 40-character lowercase hex rendering of a 160-bit digest
(zero-padded, big-endian), as produced by `hash.digest('hex')`. -/
def toHex40 (n : Nat) : String :=
  String.mk ((List.range 40).map (fun i => hexDigitChar ((n >>> (4 * (39 - i))) % 16)))

/-- Bytes of a string; exact for the ASCII inputs the code under test uses
(UTF-8 bytes coincide with code points below 128). -/
def strBytes (s : String) : List Nat :=
  s.data.map Char.toNat

/-- `sha1Hex` from the source: hex digest of the UTF-8 bytes of `input`. -/
def sha1Hex (input : String) : String :=
  toHex40 (sha1 (strBytes input))

/-- Numeric value of a hex digit character (other characters count 0; the
parser is only applied to output of `toHex40`). -/
def hexCharVal (c : Char) : Nat :=
  if 48 ≤ c.toNat ∧ c.toNat ≤ 57 then c.toNat - 48
  else if 97 ≤ c.toNat ∧ c.toNat ≤ 102 then c.toNat - 87
  else if 65 ≤ c.toNat ∧ c.toNat ≤ 70 then c.toNat - 55
  else 0

/-- `parseInt(s, 16)` on a string of hex digits. -/
def parseHex (s : String) : Nat :=
  s.data.foldl (fun acc c => acc * 16 + hexCharVal c) 0

/-- `s.substring(0, n)`. -/
def jsSubstring (s : String) (n : Nat) : String :=
  String.mk (s.data.take n)

/- ----------------------------------------------------------------- -/
/- User records (§3 of the spec; `LDUser` in the sources).  `none` on a
   field models an absent property; JS `null` is `some .null`.          -/
/- ----------------------------------------------------------------- -/

/-- A user record.  The nine built-in attributes plus `key`, `secondary`
and the `custom` map; arbitrary further top-level properties are never read
by the code under verification and are not modelled. -/
structure User where
  key : Option LDValue := none
  ip : Option LDValue := none
  country : Option LDValue := none
  email : Option LDValue := none
  firstName : Option LDValue := none
  lastName : Option LDValue := none
  avatar : Option LDValue := none
  name : Option LDValue := none
  anonymous : Option LDValue := none
  secondary : Option LDValue := none
  custom : Option (List (String × LDValue)) := none

/-- Association-list lookup, modelling `obj[key]` guarded by
`Object.hasOwnProperty.call(obj, key)` (`none` = property absent). -/
def lookupAssoc : List (String × α) → String → Option α
  | [], _ => none
  | (k, v) :: rest, key => if k = key then some v else lookupAssoc rest key

/-- The property read `user[attr]` for the attribute names the code can
reach it with. -/
def User.field (u : User) : String → Option LDValue
  | "key" => u.key
  | "ip" => u.ip
  | "country" => u.country
  | "email" => u.email
  | "firstName" => u.firstName
  | "lastName" => u.lastName
  | "avatar" => u.avatar
  | "name" => u.name
  | "anonymous" => u.anonymous
  | "secondary" => u.secondary
  | _ => none

/-- Source line 86: the list of built-in attribute names (note that
`secondary` is absent from it). -/
def builtins : List String :=
  ["key", "ip", "country", "email", "firstName", "lastName", "avatar", "name", "anonymous"]

/-- `Array.prototype.indexOf` on a string array. -/
def jsIndexOf (l : List String) (a : String) : Int :=
  match l with
  | [] => -1
  | x :: xs =>
      if x = a then 0
      else if jsIndexOf xs a = -1 then -1 else jsIndexOf xs a + 1

/-- `userValue(user, attr)` from the source: a built-in name that is an own
property of the user resolves from the top level; otherwise the lookup
falls through to `user.custom`; missing in both places gives `null`.
(JS `null` and `undefined` results are both modelled by `.null`.) -/
def userValue (user : User) (attr : String) : LDValue :=
  if jsIndexOf builtins attr ≥ 0 ∧ (user.field attr).isSome then
    (user.field attr).getD .null
  else
    match user.custom with
    | some custom =>
        match lookupAssoc custom attr with
        | some v => v
        | none => .null
    | none => .null

/-- `bucketableStringValue` from the source: strings pass through, integers
(`Number.isInteger`) are rendered base-10, everything else is not
bucketable. -/
def bucketableStringValue : LDValue → Option String
  | .str s => some s
  | .num q => if q.den = 1 then some (toString q.num) else none
  | _ => none

/-- `bucketUser(user, key, attr, salt)` from the source.  The JS division
`hashVal / 0xfffffffffffffff` of IEEE doubles is modelled as the exact
rational quotient; the two differ by less than `2 ^ (-50)`, far below the
`1e-7` tolerance the specification pins the function down to. -/
def bucketUser (user : User) (key attr salt : String) : ℚ :=
  match bucketableStringValue (userValue user attr) with
  | none => 0
  | some id0 =>
      let idHash :=
        match user.secondary with
        | some sv => if ldTruthy sv then id0 ++ "." ++ jsToString sv else id0
        | none => id0
      let hashKey := key ++ "." ++ salt ++ "." ++ idHash
      let hashVal := parseHex (jsSubstring (sha1Hex hashKey) 15)
      (hashVal : ℚ) / (0xfffffffffffffff : ℚ)

/- ----------------------------------------------------------------- -/
/- Flag / segment data model (§3) and the evaluation engine.           -/
/- ----------------------------------------------------------------- -/

/-- A clause.  `negate` is read for truthiness only, so it is modelled as a
plain boolean. -/
structure Clause where
  attr : String := ""  -- the source field `attribute` (a Lean keyword)
  op : String := ""
  values : List LDValue := []
  negate : Bool := false

/-- A segment rule.  `weight` absent (`undefined`/`null`) means the rule
matches whenever its clauses do. -/
structure SegmentRule where
  clauses : Option (List Clause) := none
  weight : Option ℚ := none
  bucketBy : Option String := none

/-- A segment. -/
structure Segment where
  key : String := ""
  salt : String := ""
  version : Nat := 0
  included : Option (List String) := none
  excluded : Option (List String) := none
  rules : Option (List SegmentRule) := none

/-- One weighted bucket of a percentage rollout.  `weight` is kept total
(a rollout entry without a weight would make the JS sum `NaN`, which is
outside the modelled number space). -/
structure WeightedVariation where
  variation : Option Int := none
  weight : ℚ := 0

/-- A percentage rollout. -/
structure Rollout where
  variations : Option (List WeightedVariation) := none
  bucketBy : Option String := none

/-- A variation-or-rollout record (fixed `variation` index, or `rollout`). -/
structure VariationOrRollout where
  variation : Option Int := none
  rollout : Option Rollout := none

/-- A prerequisite entry of a flag. -/
structure Prerequisite where
  key : String := ""
  variation : Option Int := none

/-- A target entry of a flag. -/
structure Target where
  variation : Option Int := none
  values : Option (List LDValue) := none

/-- A flag rule.  In JS the same record doubles as the rule's
variation-or-rollout part. -/
structure FlagRule where
  id : Option String := none
  clauses : Option (List Clause) := none
  variation : Option Int := none
  rollout : Option Rollout := none

/-- A feature flag (the fields consumed by the evaluation engine).
`variations` is optional: the code reads `flag.variations.length` without a
guard, and an absent array makes that read throw. -/
structure FeatureFlag where
  key : String := ""
  isOn : Bool := false  -- the source field `on` (a Lean keyword)
  variations : Option (List LDValue) := none
  offVariation : Option Int := none
  fallthrough : Option VariationOrRollout := none
  prerequisites : Option (List Prerequisite) := none
  targets : Option (List Target) := none
  rules : Option (List FlagRule) := none
  salt : String := ""
  version : Nat := 0

/-- Evaluation reasons (§4.4 "Reason shapes"). -/
inductive Reason where
  | off
  | fallthrough
  | targetMatch
  | ruleMatch (ruleIndex : Option Nat) (ruleId : Option String)
  | prerequisiteFailed (prerequisiteKey : String)
  | error (errorKind : String)
deriving DecidableEq, Repr

/-- An evaluation detail: `{ value, variationIndex, reason }`. -/
structure Detail where
  value : LDValue
  variationIndex : Option Int
  reason : Reason

/-- The `{ err, detail }` pair produced by the internal evaluation
functions; `err` holds the message of the JS `Error` object, if any. -/
structure EvalResult where
  err : Option String
  detail : Detail

/-- `errorResult(errorKind)` from the source. -/
def errorResult (errorKind : String) : Detail :=
  ⟨.null, none, .error errorKind⟩

/-- `getVariation(flag, index, reason)` from the source.  The `.error` case
models the JS `TypeError` thrown by reading `flag.variations.length` when
the flag carries no variations array. -/
def getVariation (flag : FeatureFlag) (index : Option Int) (reason : Reason) :
    Except String EvalResult :=
  match index with
  | none => .ok ⟨some "Invalid variation index in flag", errorResult "MALFORMED_FLAG"⟩
  | some i =>
      if i < 0 then
        .ok ⟨some "Invalid variation index in flag", errorResult "MALFORMED_FLAG"⟩
      else
        match flag.variations with
        | none => .error "TypeError: cannot read property of undefined"
        | some vs =>
            if (vs.length : Int) ≤ i then
              .ok ⟨some "Invalid variation index in flag", errorResult "MALFORMED_FLAG"⟩
            else
              .ok ⟨none, ⟨vs.getD i.toNat .null, some i, reason⟩⟩

/-- `getOffResult(flag, reason)` from the source. -/
def getOffResult (flag : FeatureFlag) (reason : Reason) : Except String EvalResult :=
  match flag.offVariation with
  | none => .ok ⟨none, ⟨.null, none, reason⟩⟩
  | some _ => getVariation flag flag.offVariation reason

/-- `x || 'key'`, as applied to `bucketBy` fields (JS `||`: the empty
string is falsy and also falls back to `'key'`). -/
def jsOrKey : Option String → String
  | some s => if s = "" then "key" else s
  | none => "key"

/-- The body of the rollout walk in `variationForUser`: accumulate
`sum += w.weight/100000` and return on the first bucket with
`bucket < sum`; `none` means the loop ran off the end. -/
def rolloutLoop (bucket : ℚ) (sum : ℚ) : List WeightedVariation → Option (Option Int)
  | [] => none
  | w :: rest =>
      let sum' := sum + w.weight / 100000
      if bucket < sum' then some w.variation else rolloutLoop bucket sum' rest

/-- `variationForUser(r, user, flag)` from the source; `none` is the JS
`null`/`undefined` result. -/
def variationForUser (r : VariationOrRollout) (user : User) (flag : FeatureFlag) :
    Option Int :=
  match r.variation with
  | some v => some v
  | none =>
      match r.rollout with
      | none => none
      | some rollout =>
          match rollout.variations with
          | none => none
          | some variations =>
              if variations.length > 0 then
                let bucketBy := jsOrKey rollout.bucketBy
                let bucket := bucketUser user flag.key bucketBy flag.salt
                match rolloutLoop bucket 0 variations with
                | some v => v
                | none =>
                    match variations.getLast? with
                    | some w => w.variation
                    | none => none
              else none

/-- `getResultForVariationOrRollout(r, user, flag, reason)` from the
source (`r = none` models a missing fallthrough object). -/
def getResultForVariationOrRollout (r : Option VariationOrRollout) (user : User)
    (flag : FeatureFlag) (reason : Reason) : Except String EvalResult :=
  match r with
  | none => .ok ⟨some "Fallthrough variation undefined", errorResult "MALFORMED_FLAG"⟩
  | some r =>
      match variationForUser r user flag with
      | none => .ok ⟨some "Variation/rollout object with no variation or rollout",
          errorResult "MALFORMED_FLAG"⟩
      | some i => getVariation flag (some i) reason

/-- `maybeNegate(c, b)` from the source. -/
def maybeNegate (c : Clause) (b : Bool) : Bool :=
  if c.negate then !b else b

/-- `matchAny(matchFn, value, values)` from the source. -/
def matchAny (matchFn : LDValue → LDValue → Bool) (value : LDValue)
    (values : List LDValue) : Bool :=
  values.any (fun v => matchFn value v)

/-- `clauseMatchUserNoSegments(c, user)`, parameterised by the operator
table `ops` (the `operators` module is an external collaborator).  A
`.null` user value (JS `null`/`undefined`) short-circuits to `false`
without negation. -/
def clauseMatchUserNoSegments (ops : String → LDValue → LDValue → Bool)
    (c : Clause) (user : User) : Bool :=
  match userValue user c.attr with
  | .null => false
  | .arr elems => maybeNegate c (elems.any (fun e => matchAny (ops c.op) e c.values))
  | v => maybeNegate c (matchAny (ops c.op) v c.values)

/-- Truthiness of `user.key`. -/
def userKeyTruthy (user : User) : Bool :=
  match user.key with
  | some v => ldTruthy v
  | none => false

/-- `arr.indexOf(user.key) >= 0` for a string array, with JS `===`
element comparison. -/
def memberByStrictEq (l : List String) (k : Option LDValue) : Bool :=
  match k with
  | some kv => l.any (fun el => jsStrictEq (.str el) kv)
  | none => false

/-- `segmentRuleMatchUser(rule, user, segmentKey, salt)` from the source. -/
def segmentRuleMatchUser (ops : String → LDValue → LDValue → Bool)
    (rule : SegmentRule) (user : User) (segmentKey salt : String) : Bool :=
  if (rule.clauses.getD []).all (fun c => clauseMatchUserNoSegments ops c user) then
    match rule.weight with
    | none => true
    | some w =>
        let bucket := bucketUser user segmentKey (jsOrKey rule.bucketBy) salt
        bucket < w / 100000
  else false

/-- `segmentMatchUser(segment, user)` from the source: inclusion wins over
exclusion, then the segment rules are tried in order. -/
def segmentMatchUser (ops : String → LDValue → LDValue → Bool)
    (segment : Segment) (user : User) : Bool :=
  if userKeyTruthy user then
    if memberByStrictEq (segment.included.getD []) user.key then true
    else if memberByStrictEq (segment.excluded.getD []) user.key then false
    else (segment.rules.getD []).any
      (fun r => segmentRuleMatchUser ops r user segment.key segment.salt)
  else false

/-- The read-only store view the evaluation engine consumes
(`featureStore.get(dataKind.features, ·)` / `(dataKind.segments, ·)`). -/
structure FeatureStoreView where
  getFeature : String → Option FeatureFlag
  getSegment : String → Option Segment

/-- The external collaborators of the evaluation engine: the store, the
operator table (module `operators`) and the analytics event factory
(`eventFactory.newEvalEvent(flag, user, detail, default, prereqOf)`),
producing events of an abstract type `ε`. -/
structure EvalCtx (ε : Type) where
  store : FeatureStoreView
  ops : String → LDValue → LDValue → Bool
  newEvalEvent : FeatureFlag → User → Detail → Option LDValue → FeatureFlag → ε

/-- The `segmentMatch` branch of `clauseMatchUser`: scan `c.values` for a
segment in the store that matches the user. -/
def segmentValuesSearch (ops : String → LDValue → LDValue → Bool)
    (store : FeatureStoreView) (c : Clause) (user : User) : List LDValue → Bool
  | [] => maybeNegate c false
  | v :: rest =>
      match store.getSegment (jsToString v) with
      | some seg =>
          if segmentMatchUser ops seg user then maybeNegate c true
          else segmentValuesSearch ops store c user rest
      | none => segmentValuesSearch ops store c user rest

/-- `clauseMatchUser(c, user, featureStore)` from the source. -/
def clauseMatchUser (ctx : EvalCtx ε) (c : Clause) (user : User) : Bool :=
  if c.op = "segmentMatch" then
    segmentValuesSearch ctx.ops ctx.store c user c.values
  else clauseMatchUserNoSegments ctx.ops c user

/-- The all-clauses-must-match loop of `ruleMatchUser`. -/
def ruleClausesLoop (ctx : EvalCtx ε) (user : User) : List Clause → Bool
  | [] => true
  | c :: rest =>
      if clauseMatchUser ctx c user then ruleClausesLoop ctx user rest
      else false

/-- `ruleMatchUser(r, user, featureStore)` from the source: a missing
`clauses` property means no match; otherwise every clause must match
(the loop over an empty list succeeds vacuously). -/
def ruleMatchUser (ctx : EvalCtx ε) (r : FlagRule) (user : User) : Bool :=
  match r.clauses with
  | none => false
  | some cs => ruleClausesLoop ctx user cs

/-- The target scan of `evalRules`: the first target whose `values` list
strictly-equals `user.key` yields its `variation` field. -/
def targetsLoop (user : User) : List Target → Option (Option Int)
  | [] => none
  | t :: rest =>
      match t.values with
      | none => targetsLoop user rest
      | some vals =>
          if vals.any (fun v =>
              match user.key with
              | some k => jsStrictEq k v
              | none => false) then
            some t.variation
          else targetsLoop user rest

/-- The rule-index recovery scan in `evalRules` (`flag.rules[i].id ===
rule.id`, with `undefined === undefined` true). -/
def ruleIdScan (id : Option String) : List FlagRule → Option Nat
  | [] => none
  | r :: rest =>
      if r.id = id then some 0
      else (ruleIdScan id rest).map (· + 1)

/-- The rule scan of `evalRules`; falls through when no rule matches. -/
def rulesLoop (ctx : EvalCtx ε) (flag : FeatureFlag) (user : User) :
    List FlagRule → Except String EvalResult
  | [] => getResultForVariationOrRollout flag.fallthrough user flag .fallthrough
  | r :: rest =>
      if ruleMatchUser ctx r user then
        let idx := ruleIdScan r.id (flag.rules.getD [])
        getResultForVariationOrRollout (some ⟨r.variation, r.rollout⟩) user flag
          (.ruleMatch idx r.id)
      else rulesLoop ctx flag user rest

/-- `evalRules(flag, user, featureStore)` from the source: targets first,
then rules, then the fallthrough. -/
def evalRules (ctx : EvalCtx ε) (flag : FeatureFlag) (user : User) :
    Except String EvalResult :=
  match targetsLoop user (flag.targets.getD []) with
  | some tv => getVariation flag tv .targetMatch
  | none => rulesLoop ctx flag user (flag.rules.getD [])

/-- The prerequisite loop of `checkPrerequisites`, parameterised by the
recursive evaluation of a prerequisite flag (`evalInternal` one stack level
deeper).  On failure it yields the `{err, reason}` pair the source builds
from `errInfo`; a missing prerequisite flag fails without emitting an
event, while an evaluated prerequisite emits exactly one event whatever
its outcome. -/
def checkPrereqLoop (ctx : EvalCtx ε)
    (recurse : FeatureFlag → User → Except String (EvalResult × List ε))
    (flag : FeatureFlag) (user : User) :
    List Prerequisite → Except String (List ε × Option (Option String × Reason))
  | [] => .ok ([], none)
  | p :: rest =>
      match ctx.store.getFeature p.key with
      | none =>
          .ok ([], some (some ("Could not retrieve prerequisite feature flag \x22" ++ p.key ++ "\x22"),
            .prerequisiteFailed p.key))
      | some prereqFlag =>
          match recurse prereqFlag user with
          | .error e => .error e
          | .ok (subRes, subEvs) =>
              let ev := ctx.newEvalEvent prereqFlag user subRes.detail none flag
              let evs := subEvs ++ [ev]
              match subRes.err with
              | some e => .ok (evs, some (some e, .prerequisiteFailed p.key))
              | none =>
                  if !prereqFlag.isOn || subRes.detail.variationIndex != p.variation then
                    .ok (evs, some (none, .prerequisiteFailed p.key))
                  else
                    match checkPrereqLoop ctx recurse flag user rest with
                    | .error e => .error e
                    | .ok (restEvs, res) => .ok (evs ++ restEvs, res)

/-- `evalInternal(flag, user, featureStore, events, eventFactory)` from the
source.  `fuel` models the JS call stack consumed by prerequisite
recursion: exhausting it is the stack-overflow `RangeError` a cyclic
prerequisite graph produces.  The returned list carries the events pushed
into the `events` array, in push order. -/
def evalInternal (ctx : EvalCtx ε) : Nat → FeatureFlag → User →
    Except String (EvalResult × List ε)
  | 0, _, _ => .error "RangeError: Maximum call stack size exceeded"
  | fuel + 1, flag, user =>
      if !flag.isOn then (getOffResult flag .off).map (fun r => (r, []))
      else
        match checkPrereqLoop ctx (evalInternal ctx fuel) flag user
            (flag.prerequisites.getD []) with
        | .error e => .error e
        | .ok (evs, some pfail) =>
            (getOffResult flag pfail.2).map (fun r => (r, evs))
        | .ok (evs, none) =>
            (evalRules ctx flag user).map (fun r => (r, evs))

/-- Modelled from the spec: the helper `stringifyAttrs(user, ['key',
'secondary'])` (module `utils/stringifyAttrs` is not among the sources):
"produce a shallow-rewritten user where `key` and `secondary`, if
numeric/boolean, are coerced to strings. Other built-ins are left
untouched" (§4.4). -/
def stringifyAttrs (u : User) : User :=
  let coerce : Option LDValue → Option LDValue := fun v =>
    match v with
    | some (.num q) => some (.str (jsToString (.num q)))
    | some (.bool b) => some (.str (jsToString (.bool b)))
    | other => other
  { u with key := coerce u.key, secondary := coerce u.secondary }

/-- The `{ err, detail, events }` record `evaluate` returns. -/
structure EvalOutcome (ε : Type) where
  err : Option String
  detail : Detail
  events : List ε

/-- `evaluate(flag, user, featureStore, eventFactory)` from the source,
with its missing-user / missing-key / missing-flag preconditions.  A
`.error` result models an uncaught JS exception escaping `evaluate`. -/
def evaluate (ctx : EvalCtx ε) (fuel : Nat) (flag : Option FeatureFlag)
    (user : Option User) : Except String (EvalOutcome ε) :=
  match user with
  | none => .ok ⟨none, errorResult "USER_NOT_SPECIFIED", []⟩
  | some u =>
      match u.key with
      | none => .ok ⟨none, errorResult "USER_NOT_SPECIFIED", []⟩
      | some .null => .ok ⟨none, errorResult "USER_NOT_SPECIFIED", []⟩
      | some _ =>
          match flag with
          | none => .ok ⟨none, errorResult "FLAG_NOT_FOUND", []⟩
          | some f =>
              let sanitizedUser := stringifyAttrs u
              (evalInternal ctx fuel f sanitizedUser).map
                (fun r => ⟨r.1.err, r.1.detail, r.2⟩)

/- ----------------------------------------------------------------- -/
/- The in-memory feature store (`InMemoryFeatureStore`).               -/
/- ----------------------------------------------------------------- -/

/-- Modelled from the spec: data kinds (module `versioned_data_kind` is not
among the sources): "Two kinds exist in the base protocol: `features` and
`segments`. A kind has a unique `namespace` string and a `streamApiPath`
prefix (e.g. `/flags/` and `/segments/`)" (§3).  The field `nspace` stands
for the source field `namespace` (a Lean keyword). -/
structure DataKind where
  nspace : String
  streamApiPath : String
deriving DecidableEq, Repr

def DataKind.features : DataKind := ⟨"features", "/flags/"⟩

def DataKind.segments : DataKind := ⟨"segments", "/segments/"⟩

/-- A generic stored item: `key` and `version` plus the `deleted` tombstone
marker.  Tombstones carry no `key`, hence the `Option`; `payload` stands
for all further JSON fields an item may carry. -/
structure StoreItem where
  key : Option String := none
  version : Nat := 0
  deleted : Bool := false
  payload : Option String := none
deriving DecidableEq, Repr

/-- The tombstone `{ version: version, deleted: true }` built by
`store.delete`. -/
def deletedItem (version : Nat) : StoreItem :=
  ⟨none, version, true, none⟩

/-- JS object property assignment `m[k] = v` (replace in place, else
append, preserving JS property insertion order). -/
def setAssoc : List (String × α) → String → α → List (String × α)
  | [], k, v => [(k, v)]
  | (k', v') :: rest, k, v =>
      if k' = k then (k, v) :: rest else (k', v') :: setAssoc rest k v

/-- The property key used by `items[item.key]`: JS coerces an `undefined`
key to the string `"undefined"`. -/
def jsPropKey : Option String → String
  | some s => s
  | none => "undefined"

/-- `clone(obj)` from the source: a `JSON.parse(JSON.stringify(obj))` deep
copy, which is the identity on the pure model. -/
def clone (item : StoreItem) : StoreItem := item

/-- The mutable state captured by the `InMemoryFeatureStore` closure:
`allData` maps namespace strings to item maps (whose entries may be the JS
`null`), and `initCalled` records whether `init` ever ran. -/
structure StoreState where
  allData : List (String × List (String × Option StoreItem)) := []
  initCalled : Bool := false
deriving DecidableEq, Repr

/-- `store.get(kind, key)`: `null` for a missing, null or tombstoned
entry. -/
def StoreState.get (s : StoreState) (kind : DataKind) (key : String) :
    Option StoreItem :=
  let items := (lookupAssoc s.allData kind.nspace).getD []
  match lookupAssoc items key with
  | none => none
  | some none => none
  | some (some item) => if item.deleted then none else some item

/-- `store.all(kind)`: every non-null, non-tombstoned entry. -/
def StoreState.all (s : StoreState) (kind : DataKind) :
    List (String × StoreItem) :=
  let items := (lookupAssoc s.allData kind.nspace).getD []
  items.filterMap (fun kv =>
    match kv.2 with
    | some item => if item.deleted then none else some (kv.1, item)
    | none => none)

/-- `store.init(newData)`: replace all contents, mark initialised. -/
def StoreState.init (_s : StoreState)
    (newData : List (String × List (String × Option StoreItem))) : StoreState :=
  ⟨newData, true⟩

/-- `store.delete(kind, key, version)` from the source.  Note the slip in
the missing-namespace branch: the fresh item map is stored under
`allData[kind]` — the kind object coerced to the property key
`"[object Object]"` — not under `allData[kind.namespace]`. -/
def StoreState.delete (s : StoreState) (kind : DataKind) (key : String)
    (version : Nat) : StoreState :=
  match lookupAssoc s.allData kind.nspace with
  | none =>
      let items := setAssoc [] key (some (deletedItem version))
      { s with allData := setAssoc s.allData "[object Object]" items }
  | some items =>
      match lookupAssoc items key with
      | none =>
          let items2 := setAssoc items key (some (deletedItem version))
          { s with allData := setAssoc s.allData kind.nspace items2 }
      | some none =>
          let items2 := setAssoc items key (some (deletedItem version))
          { s with allData := setAssoc s.allData kind.nspace items2 }
      | some (some old) =>
          if old.version < version then
            let items2 := setAssoc items key (some (deletedItem version))
            { s with allData := setAssoc s.allData kind.nspace items2 }
          else s

/-- `store.upsert(kind, item)` from the source.  A stored `null` entry is
never overwritten (the `old && old.version < item.version` guard), and a
missing namespace map is created under the correct key here. -/
def StoreState.upsert (s : StoreState) (kind : DataKind) (item : StoreItem) :
    StoreState :=
  let key := jsPropKey item.key
  match lookupAssoc s.allData kind.nspace with
  | none =>
      let items2 := setAssoc [] key (some (clone item))
      { s with allData := setAssoc s.allData kind.nspace items2 }
  | some items =>
      match lookupAssoc items key with
      | none =>
          let items2 := setAssoc items key (some (clone item))
          { s with allData := setAssoc s.allData kind.nspace items2 }
      | some none => s
      | some (some old) =>
          if old.version < item.version then
            let items2 := setAssoc items key (some (clone item))
            { s with allData := setAssoc s.allData kind.nspace items2 }
          else s

/-- `store.initialized()`. -/
def StoreState.isInited (s : StoreState) : Bool := s.initCalled

/-- The version currently recorded at `(kind, key)` (tombstones included;
`none` when the entry is missing or a stored `null`). -/
def StoreState.versionAt (s : StoreState) (kind : DataKind) (key : String) :
    Option Nat :=
  match lookupAssoc ((lookupAssoc s.allData kind.nspace).getD []) key with
  | some (some item) => some item.version
  | _ => none

/-- The entry stored at `(kind, key)`: `none` = absent, `some none` = a
stored JS `null`, `some (some item)` = an item or tombstone. -/
def StoreState.entryAt (s : StoreState) (kind : DataKind) (key : String) :
    Option (Option StoreItem) :=
  lookupAssoc ((lookupAssoc s.allData kind.nspace).getD []) key

/-- One mutation of the store, for reasoning about operation sequences. -/
inductive StoreOp where
  | init (newData : List (String × List (String × Option StoreItem)))
  | upsert (kind : DataKind) (item : StoreItem)
  | delete (kind : DataKind) (key : String) (version : Nat)
deriving DecidableEq, Repr

/-- Apply one operation. -/
def applyStoreOp (s : StoreState) : StoreOp → StoreState
  | .init d => s.init d
  | .upsert kind item => s.upsert kind item
  | .delete kind key version => s.delete kind key version

/-- Run a sequence of operations. -/
def runStoreOps (s : StoreState) (ops : List StoreOp) : StoreState :=
  ops.foldl applyStoreOp s

/-- The version an operation "observes" for `(kind, key)`: the version of
the item an `init` installs there, the version of an `upsert` whose item
keys there, or the version of a `delete` of that key. -/
def observedVersion (kind : DataKind) (key : String) : StoreOp → Option Nat
  | .init d =>
      match lookupAssoc ((lookupAssoc d kind.nspace).getD []) key with
      | some (some item) => some item.version
      | _ => none
  | .upsert k item =>
      if k = kind ∧ jsPropKey item.key = key then some item.version else none
  | .delete k dkey v =>
      if k = kind ∧ dkey = key then some v else none

/-- "The maximum version ever observed for that key since the last init"
over an operation sequence (an `init` resets the record to what it itself
installs). -/
def maxObservedVersion (kind : DataKind) (key : String)
    (ops : List StoreOp) : Option Nat :=
  ops.foldl (fun acc op =>
    match op with
    | .init _ => observedVersion kind key op
    | _ =>
        match observedVersion kind key op with
        | some v => some (max (acc.getD 0) v)
        | none => acc) none

/-- Updates of a single kind (`upsert`/`delete` only), used to state the
per-key version invariant. -/
inductive UpdateOp where
  | upsert (item : StoreItem)
  | delete (key : String) (version : Nat)
deriving DecidableEq, Repr

/-- The key an update targets. -/
def UpdateOp.targetKey : UpdateOp → String
  | .upsert item => jsPropKey item.key
  | .delete key _ => key

/-- The version an update carries. -/
def UpdateOp.opVersion : UpdateOp → Nat
  | .upsert item => item.version
  | .delete _ version => version

/-- Apply one same-kind update. -/
def applyUpdateOp (kind : DataKind) (s : StoreState) : UpdateOp → StoreState
  | .upsert item => s.upsert kind item
  | .delete key version => s.delete kind key version

/-- Run a sequence of same-kind updates. -/
def runUpdateOps (kind : DataKind) (s : StoreState) (ops : List UpdateOp) :
    StoreState :=
  ops.foldl (applyUpdateOp kind) s

/- ----------------------------------------------------------------- -/
/- The streaming update processor (`StreamProcessor`, streaming.js).   -/
/- ----------------------------------------------------------------- -/

/-- Modelled from the spec: `errors.isHttpErrorRecoverable` (module
`errors` is not among the sources): "Non-recoverable: `401` (bad SDK key),
`403`, any `4xx` that is not `408`, `429`. Recoverable: transport errors,
`5xx`, `408`, `429`" (§7). -/
def isHttpErrorRecoverable (status : Nat) : Bool :=
  if 400 ≤ status && status ≤ 499 then status == 408 || status == 429
  else true

/-- The `{flags, segments}` payload of a `put` event body (`data` field)
or of a `requestAllData` response. -/
structure PutData where
  flags : List (String × Option StoreItem) := []
  segments : List (String × Option StoreItem) := []
deriving DecidableEq, Repr

/-- A parsed `patch` event body. -/
structure PatchData where
  path : String := ""
  data : StoreItem := {}
deriving DecidableEq, Repr

/-- A parsed `delete` event body. -/
structure DeleteData where
  path : String := ""
  version : Nat := 0
deriving DecidableEq, Repr

/-- One input to the streaming processor: an SSE event or a transport
error routed through `errorFilter`.  For events with a body, `none` models
a missing/empty `data` field (`e && e.data` falsy), `some (.error ())` a
body `JSON.parse` rejects, `some (.ok d)` a body parsing to `d`.  The
`indirect*` events carry the (already parsed) requestor response as an
oracle parameter. -/
inductive StreamEvent where
  | put (e : Option (Except Unit PutData))
  | patch (e : Option (Except Unit PatchData))
  | delete (e : Option (Except Unit DeleteData))
  | indirectPut (resp : Except String PutData)
  | indirectPatch (path : Option String) (resp : Except String StoreItem)
  | streamError (status : Option Nat)

/-- `getKeyFromPath(kind, path)` from the source. -/
def getKeyFromPath (kind : DataKind) (path : String) : Option String :=
  if path.startsWith kind.streamApiPath then
    some (path.drop kind.streamApiPath.length)
  else none

/-- The `for (const k in dataKind)` routing loop shared by the patch /
delete / indirect-patch handlers (`features` first, then `segments`). -/
def routePath (path : String) : Option (DataKind × String) :=
  match getKeyFromPath DataKind.features path with
  | some key => some (DataKind.features, key)
  | none =>
      match getKeyFromPath DataKind.segments path with
      | some key => some (DataKind.segments, key)
      | none => none

/-- State of a started stream processor: the wrapped feature store, the
sequence of invocations of the `start` callback `cb` (`none` = `cb()`,
`some m` = `cb(error m)`), and whether `handleError` shut the connection
down. -/
structure StreamState where
  store : StoreState := {}
  cbCalls : List (Option String) := []
  closed : Bool := false
deriving DecidableEq, Repr

/-- Record one `cb(error)` invocation. -/
def cbError (st : StreamState) (m : String) : StreamState :=
  { st with cbCalls := st.cbCalls ++ [some m] }

/-- Process one stream input, per the handlers registered in
`processor.start` (diagnostics and logging are not modelled). -/
def processStreamEvent (st : StreamState) (ev : StreamEvent) : StreamState :=
  if st.closed then st
  else
    match ev with
    | .put none => cbError st "Unexpected payload from event stream"
    | .put (some (.error _)) => cbError st "Malformed JSON data in event stream"
    | .put (some (.ok d)) =>
        let initData := [("features", d.flags), ("segments", d.segments)]
        let store2 := st.store.init initData
        { st with store := store2, cbCalls := st.cbCalls ++ [none] }
    | .patch none => cbError st "Unexpected payload from event stream"
    | .patch (some (.error _)) => cbError st "Malformed JSON data in event stream"
    | .patch (some (.ok p)) =>
        match routePath p.path with
        | some (kind, _) => { st with store := st.store.upsert kind p.data }
        | none => st
    | .delete none => cbError st "Unexpected payload from event stream"
    | .delete (some (.error _)) => cbError st "Malformed JSON data in event stream"
    | .delete (some (.ok d)) =>
        match routePath d.path with
        | some (kind, key) => { st with store := st.store.delete kind key d.version }
        | none => st
    | .indirectPut (.error e) => cbError st e
    | .indirectPut (.ok d) =>
        let initData := [("features", d.flags), ("segments", d.segments)]
        let store2 := st.store.init initData
        { st with store := store2, cbCalls := st.cbCalls ++ [none] }
    | .indirectPatch none _ => cbError st "Unexpected payload from event stream"
    | .indirectPatch (some path) resp =>
        match routePath path with
        | some (kind, key) =>
            match resp with
            | .error _ =>
                cbError st ("Unexpected error requesting " ++ key ++ " in " ++ kind.nspace)
            | .ok item => { st with store := st.store.upsert kind item }
        | none => st
    | .streamError status =>
        match status with
        | some s =>
            if s != 0 && !isHttpErrorRecoverable s then
              { st with cbCalls := st.cbCalls ++ [some "LDStreamingError"], closed := true }
            else st
        | none => st

/-- Run the processor over a sequence of inputs from its initial state. -/
def runStream (events : List StreamEvent) : StreamState :=
  events.foldl processStreamEvent {}

/- ----------------------------------------------------------------- -/
/- The client evaluation wrappers (`variationInternal`, `variation`,
   `variationDetail` in the client file).                              -/
/- ----------------------------------------------------------------- -/

/-- The client-side `errorResult(errorKind, defaultVal)`: unlike the
engine's, it carries the caller's default value. -/
def clientErrorResult (errorKind : String) (defaultVal : LDValue) : Detail :=
  ⟨defaultVal, none, .error errorKind⟩

/-- `variationInternal(key, user, defaultVal, eventFactory)` from the
client file, modelled on the online, initialised path (`isOffline()`
false; event delivery not modelled).  `none` is the `undefined` the JS
function returns when `evaluate` throws: the `catch` block only logs and
falls off the end of the function. -/
def variationInternal (ctx : EvalCtx ε) (fuel : Nat) (key : String)
    (user : Option User) (defaultVal : LDValue) : Option Detail :=
  if key = "" then some (clientErrorResult "FLAG_NOT_FOUND" defaultVal)
  else
    match ctx.store.getFeature key with
    | none => some (clientErrorResult "FLAG_NOT_FOUND" defaultVal)
    | some flag =>
        match user with
        | none => some (clientErrorResult "USER_NOT_SPECIFIED" defaultVal)
        | some _ =>
            match evaluate ctx fuel (some flag) user with
            | .ok outcome =>
                let detail := outcome.detail
                if detail.variationIndex = none then
                  some { detail with value := defaultVal }
                else some detail
            | .error _ => none

/-- `client.variation(key, user, defaultVal)`: reads `.value` off the
result of `variationInternal`; the `.error` case is the `TypeError` that
read throws when `variationInternal` returned `undefined`. -/
def clientVariation (ctx : EvalCtx ε) (fuel : Nat) (key : String)
    (user : Option User) (defaultVal : LDValue) : Except String LDValue :=
  match variationInternal ctx fuel key user defaultVal with
  | some d => .ok d.value
  | none => .error "TypeError: cannot read property value of undefined"

/- ----------------------------------------------------------------- -/
/- Specification-side definitions used to compare code behaviour with
   the claims, and small fixtures.                                     -/
/- ----------------------------------------------------------------- -/

/-- The bucketing formula as the specification words it: `'.' + secondary`
is appended whenever `user.secondary` is *present* (the code appends only
when it is truthy). -/
def bucketUserClaim (user : User) (key attr salt : String) : ℚ :=
  match bucketableStringValue (userValue user attr) with
  | none => 0
  | some id0 =>
      let idHash :=
        match user.secondary with
        | some sv => id0 ++ "." ++ jsToString sv
        | none => id0
      let hashKey := key ++ "." ++ salt ++ "." ++ idHash
      let hashVal := parseHex (jsSubstring (sha1Hex hashKey) 15)
      (hashVal : ℚ) / (0xfffffffffffffff : ℚ)

/-- Variation-or-rollout resolution as the specification words it:
`bucket(user, flag.key, rollout.bucketBy ?? "key", flag.salt)` — nullish
coalescing, so an empty-string `bucketBy` is kept (the code uses `||` and
replaces it by `'key'`). -/
def variationForUserClaim (r : VariationOrRollout) (user : User)
    (flag : FeatureFlag) : Option Int :=
  match r.variation with
  | some v => some v
  | none =>
      match r.rollout with
      | none => none
      | some rollout =>
          match rollout.variations with
          | none => none
          | some variations =>
              if variations.length > 0 then
                let bucket := bucketUser user flag.key (rollout.bucketBy.getD "key") flag.salt
                match rolloutLoop bucket 0 variations with
                | some v => v
                | none =>
                    match variations.getLast? with
                    | some w => w.variation
                    | none => none
              else none

/-- Cumulative rollout weight of the first `n` buckets, in units of a full
rollout (`weight / 100000` summed). -/
def partialWeight (ws : List WeightedVariation) (n : Nat) : ℚ :=
  ((ws.take n).map (fun w => w.weight / 100000)).sum

/-- A placeholder weighted variation (used only as the `getD` default at
indices proved to be in bounds). -/
def wvDefault : WeightedVariation := ⟨none, 0⟩

/-- Whether processing a stream input invokes the `start` callback `cb`
(on an open connection): every `put` and `indirect/put` does — also the
successful ones — as do malformed or missing payloads, failed
indirect-patch requests, and non-recoverable stream errors. -/
def cbTriggering : StreamEvent → Bool
  | .put _ => true
  | .patch none => true
  | .patch (some (.error _)) => true
  | .patch (some (.ok _)) => false
  | .delete none => true
  | .delete (some (.error _)) => true
  | .delete (some (.ok _)) => false
  | .indirectPut _ => true
  | .indirectPatch none _ => true
  | .indirectPatch (some path) resp =>
      (routePath path).isSome &&
        (match resp with | .error _ => true | .ok _ => false)
  | .streamError status =>
      match status with
      | some s => s != 0 && !isHttpErrorRecoverable s
      | none => false

/-- Whether a stream input makes `handleError` shut the connection down
(a non-recoverable HTTP status). -/
def shutsDown : StreamEvent → Bool
  | .streamError (some s) => s != 0 && !isHttpErrorRecoverable s
  | _ => false

/-- Number of `cb` invocations a sequence of stream inputs produces: one
per triggering input, up to and including the first input that shuts the
connection down. -/
def countCb : List StreamEvent → Nat
  | [] => 0
  | e :: rest =>
      (if cbTriggering e then 1 else 0) + (if shutsDown e then 0 else countCb rest)

/-- An evaluation context with an empty store, an operator table that
matches nothing and unit events. -/
def trivialCtx : EvalCtx Unit :=
  ⟨⟨fun _ => none, fun _ => none⟩, fun _ _ _ => false, fun _ _ _ _ _ => ()⟩

/-- A store view holding one off flag (key `feature`) that carries no
`variations` array, so that evaluating it throws. -/
def noVariationsCtx : EvalCtx Unit :=
  ⟨⟨fun k =>
      if k = "feature" then
        some { key := "feature", isOn := false, offVariation := some 0 }
      else none,
    fun _ => none⟩,
    fun _ _ _ => false, fun _ _ _ _ _ => ()⟩

/- ----------------------------------------------------------------- -/
/- Helper lemmas.                                                      -/
/- ----------------------------------------------------------------- -/

theorem ruleClausesLoop_eq_all (ctx : EvalCtx ε) (user : User) (cs : List Clause) :
    ruleClausesLoop ctx user cs = cs.all (fun c => clauseMatchUser ctx c user) := by
  induction cs with
  | nil => rfl
  | cons c rest ih =>
      cases h : clauseMatchUser ctx c user <;>
        simp [ruleClausesLoop, h, ih, List.all_cons]

theorem jsIndexOf_neg_one_le (l : List String) (a : String) : -1 ≤ jsIndexOf l a := by
  induction l with
  | nil => simp [jsIndexOf]
  | cons x xs ih =>
      simp only [jsIndexOf]
      by_cases hx : x = a
      · simp [hx]
      · simp only [if_neg hx]
        by_cases hr : jsIndexOf xs a = -1
        · simp [hr]
        · simp only [if_neg hr]
          omega

theorem jsIndexOf_nonneg_iff (l : List String) (a : String) :
    0 ≤ jsIndexOf l a ↔ a ∈ l := by
  induction l with
  | nil => simp [jsIndexOf]
  | cons x xs ih =>
      simp only [jsIndexOf]
      by_cases hx : x = a
      · simp [hx]
      · have hle := jsIndexOf_neg_one_le xs a
        by_cases hr : jsIndexOf xs a = -1
        · simp only [hx, if_false, hr, if_pos rfl]
          constructor
          · intro h0; simp at h0
          · intro hmem
            rcases List.mem_cons.1 hmem with h | h
            · exact absurd h.symm hx
            · have := ih.2 h; omega
        · simp only [hx, if_false, hr, if_neg hr]
          constructor
          · intro _
            exact List.mem_cons_of_mem x (ih.1 (by omega))
          · intro _; omega

/- ----------------------------------------------------------------- -/
/- Claim C4: rule matching.                                            -/
/- ----------------------------------------------------------------- -/

/-- C4, counterexample: a rule whose `clauses` list is present but empty
matches every user (the loop over zero clauses succeeds vacuously), while
the claim says a rule with an empty clauses list matches no user. -/
theorem ruleMatchUser_empty_clauses_counterexample :
    ruleMatchUser trivialCtx { clauses := some [] } {} = true := rfl

/-- C4 (amended): a rule matches iff its `clauses` property is present
(non-null) and every clause in it matches; an empty clauses list therefore
matches every user, and only a rule with no `clauses` property matches no
user. -/
theorem ruleMatchUser_characterization (ctx : EvalCtx ε) (r : FlagRule) (user : User) :
    ruleMatchUser ctx r user =
      (r.clauses.isSome && (r.clauses.getD []).all (fun c => clauseMatchUser ctx c user)) := by
  cases h : r.clauses with
  | none => simp [ruleMatchUser, h]
  | some cs => simp [ruleMatchUser, h, ruleClausesLoop_eq_all]

/- ----------------------------------------------------------------- -/
/- Claim C5: attribute lookup.                                         -/
/- ----------------------------------------------------------------- -/

/-- C5, counterexample: `ip` is a built-in attribute name, yet when the
user record has no top-level `ip` property the lookup falls through to
`user.custom` and returns the custom value — the claim says built-in names
resolve from the top level only (missing → null). -/
theorem userValue_custom_shadows_builtin_counterexample :
    userValue { key := some (.str "u"), custom := some [("ip", .str "1.2.3.4")] } "ip"
      = .str "1.2.3.4"
    ∧ ({ key := some (.str "u"), custom := some [("ip", .str "1.2.3.4")] } : User).ip = none
    ∧ "ip" ∈ builtins :=
  ⟨rfl, rfl, by decide⟩

/-- C5 (amended): a built-in name — the built-in list is `key, ip, country,
email, firstName, lastName, avatar, name, anonymous`, and does NOT include
`secondary` — resolves from the top-level user record when present there
as an own property; otherwise (including always for `secondary`) the
lookup falls through to `user.custom`; missing in both places → null. -/
theorem userValue_characterization :
    (∀ (u : User) (attr : String), attr ∈ builtins → (u.field attr).isSome →
        userValue u attr = (u.field attr).getD .null)
    ∧ (∀ (u : User) (attr : String), attr ∉ builtins ∨ u.field attr = none →
        userValue u attr =
          match u.custom with
          | some custom =>
              match lookupAssoc custom attr with
              | some v => v
              | none => .null
          | none => .null)
    ∧ "secondary" ∉ builtins := by
  refine ⟨?_, ?_, by decide⟩
  · intro u attr hmem hsome
    unfold userValue
    rw [if_pos ⟨(jsIndexOf_nonneg_iff _ _).2 hmem, hsome⟩]
  · intro u attr h
    unfold userValue
    rw [if_neg ?hneg]
    case hneg =>
      rintro ⟨hge, hsome⟩
      rcases h with h | h
      · exact h ((jsIndexOf_nonneg_iff _ _).1 hge)
      · rw [h] at hsome; exact absurd hsome (by simp)

/-- C5, witness for the amended theorem: both directions at concrete
inputs. -/
theorem userValue_characterization_witness :
    userValue { email := some (.str "e@x"), custom := some [("email", .str "shadowed")] }
      "email" = .str "e@x"
    ∧ userValue { secondary := some (.str "top"), custom := some [("secondary", .str "cust")] }
      "secondary" = .str "cust" := by
  constructor
  · exact userValue_characterization.1 _ "email" (by decide) rfl
  · exact (userValue_characterization.2.1 _ "secondary" (Or.inl (by decide))).trans rfl

/- ----------------------------------------------------------------- -/
/- Claim C6: evaluation preconditions.                                 -/
/- ----------------------------------------------------------------- -/

/-- C6, counterexample: a user whose `key` is the *empty string* is not
rejected — evaluation proceeds normally (here: an off flag returns its off
variation with reason `OFF`), while the claim says a null **or empty** key
yields `ERROR USER_NOT_SPECIFIED`. -/
theorem evaluate_empty_key_counterexample :
    evaluate trivialCtx 1
      (some { key := "feature", isOn := false, offVariation := some 1,
              variations := some [.str "a", .str "b", .str "c"],
              fallthrough := some { variation := some 0 } })
      (some { key := some (.str "") })
      = .ok ⟨none, ⟨.str "b", some 1, .off⟩, []⟩
    ∧ Reason.off ≠ .error "USER_NOT_SPECIFIED" :=
  ⟨rfl, by decide⟩

/-- C6 (amended): a missing user, or a user whose `key` property is null
or undefined (but NOT one with an empty-string key), yields
`err = null`, `detail = errorResult(USER_NOT_SPECIFIED)` and no events;
with a user passing that guard, a missing flag yields `err = null`,
`detail = errorResult(FLAG_NOT_FOUND)` and no events. -/
theorem evaluate_guard_results (ctx : EvalCtx ε) (fuel : Nat)
    (flag : Option FeatureFlag) :
    (evaluate ctx fuel flag none = .ok ⟨none, errorResult "USER_NOT_SPECIFIED", []⟩)
    ∧ (∀ u : User, u.key = none ∨ u.key = some .null →
        evaluate ctx fuel flag (some u) = .ok ⟨none, errorResult "USER_NOT_SPECIFIED", []⟩)
    ∧ (∀ (u : User) (v : LDValue), u.key = some v → v ≠ .null →
        evaluate ctx fuel none (some u) = .ok ⟨none, errorResult "FLAG_NOT_FOUND", []⟩) := by
  refine ⟨rfl, ?_, ?_⟩
  · intro u h
    rcases h with h | h <;> simp [evaluate, h]
  · intro u v hk hnn
    cases v <;> simp [evaluate, hk]
    exact absurd rfl hnn

/-- C6, witness for the amended theorem at concrete inputs: a null-keyed
user and a missing flag. -/
theorem evaluate_guard_results_witness :
    evaluate trivialCtx 1 none (some { key := some .null })
      = .ok ⟨none, errorResult "USER_NOT_SPECIFIED", []⟩
    ∧ evaluate trivialCtx 1 none (some { key := some (.str "u") })
      = .ok ⟨none, errorResult "FLAG_NOT_FOUND", []⟩ :=
  ⟨(evaluate_guard_results trivialCtx 1 none).2.1 _ (Or.inr rfl),
   (evaluate_guard_results trivialCtx 1 none).2.2 _ (.str "u") rfl (by intro h; cases h)⟩

/- ----------------------------------------------------------------- -/
/- Claim C1: the bucketing primitive.                                  -/
/- ----------------------------------------------------------------- -/

theorem hexCharVal_le (c : Char) : hexCharVal c ≤ 15 := by
  unfold hexCharVal
  split_ifs <;> omega

theorem parseHex_foldl_lt (cs : List Char) :
    ∀ acc : Nat, cs.foldl (fun a c => a * 16 + hexCharVal c) acc < 16 ^ cs.length * (acc + 1) := by
  induction cs with
  | nil => intro acc; simp
  | cons c rest ih =>
      intro acc
      simp only [List.foldl_cons, List.length_cons]
      have h1 : acc * 16 + hexCharVal c + 1 ≤ 16 * (acc + 1) := by
        have := hexCharVal_le c; omega
      calc rest.foldl (fun a c => a * 16 + hexCharVal c) (acc * 16 + hexCharVal c)
          < 16 ^ rest.length * (acc * 16 + hexCharVal c + 1) := ih _
        _ ≤ 16 ^ rest.length * (16 * (acc + 1)) := Nat.mul_le_mul_left _ h1
        _ = 16 ^ (rest.length + 1) * (acc + 1) := by ring

theorem parseHex_jsSubstring_le (s : String) :
    parseHex (jsSubstring s 15) ≤ 0xfffffffffffffff := by
  have h := parseHex_foldl_lt (jsSubstring s 15).data 0
  have hlen : (jsSubstring s 15).data.length ≤ 15 := by
    simp only [jsSubstring]
    simp
  have hpow : (16 : Nat) ^ (jsSubstring s 15).data.length ≤ 16 ^ 15 :=
    Nat.pow_le_pow_right (by norm_num) hlen
  have : parseHex (jsSubstring s 15) < 16 ^ 15 := by
    have := h
    simp only [Nat.mul_one] at this
    calc parseHex (jsSubstring s 15)
        < 16 ^ (jsSubstring s 15).data.length * (0 + 1) := h
      _ ≤ 16 ^ 15 := by simpa using hpow
  omega

/-- C1, counterexample: the code appends `'.' + secondary` only when
`user.secondary` is *truthy*; the claim says it is appended whenever
`user.secondary` is *present*.  For a user with `secondary: ""` (present
but falsy) the code hashes `hashKey.saltyA.k` while the claimed formula
hashes `hashKey.saltyA.k.`, and the two buckets differ. -/
theorem bucketUser_secondary_truthiness_counterexample :
    bucketUser { key := some (.str "k"), secondary := some (.str "") } "hashKey" "key" "saltyA"
      = (21095989235369450 : ℚ) / 1152921504606846975
    ∧ bucketUserClaim { key := some (.str "k"), secondary := some (.str "") } "hashKey" "key" "saltyA"
      = (424008546317813117 : ℚ) / 1152921504606846975
    ∧ bucketUser { key := some (.str "k"), secondary := some (.str "") } "hashKey" "key" "saltyA"
      ≠ bucketUserClaim { key := some (.str "k"), secondary := some (.str "") } "hashKey" "key" "saltyA" := by
  have hb1 : bucketUser { key := some (.str "k"), secondary := some (.str "") } "hashKey" "key" "saltyA"
      = (parseHex (jsSubstring (sha1Hex "hashKey.saltyA.k") 15) : ℚ) / (0xfffffffffffffff : ℚ) := rfl
  have hb2 : bucketUserClaim { key := some (.str "k"), secondary := some (.str "") } "hashKey" "key" "saltyA"
      = (parseHex (jsSubstring (sha1Hex "hashKey.saltyA.k.") 15) : ℚ) / (0xfffffffffffffff : ℚ) := rfl
  have hn1 : parseHex (jsSubstring (sha1Hex "hashKey.saltyA.k") 15) = 21095989235369450 := by decide
  have hn2 : parseHex (jsSubstring (sha1Hex "hashKey.saltyA.k.") 15) = 424008546317813117 := by decide
  have h1 : bucketUser { key := some (.str "k"), secondary := some (.str "") } "hashKey" "key" "saltyA"
      = (21095989235369450 : ℚ) / 1152921504606846975 := by
    rw [hb1, hn1]; norm_num
  have h2 : bucketUserClaim { key := some (.str "k"), secondary := some (.str "") } "hashKey" "key" "saltyA"
      = (424008546317813117 : ℚ) / 1152921504606846975 := by
    rw [hb2, hn2]; norm_num
  refine ⟨h1, h2, ?_⟩
  rw [h1, h2]
  norm_num

theorem bucketUser_formula (u : User) (key attr salt : String) :
    bucketUser u key attr salt =
      (match bucketableStringValue (userValue u attr) with
       | none => (0 : ℚ)
       | some id0 =>
           ((parseHex (jsSubstring (sha1Hex (key ++ "." ++ salt ++ "." ++
               (match u.secondary with
                | some sv => if ldTruthy sv then id0 ++ "." ++ jsToString sv else id0
                | none => id0))) 15) : ℚ) / (0xfffffffffffffff : ℚ))) := by
  unfold bucketUser
  cases h : bucketableStringValue (userValue u attr) <;> rfl

theorem bucketUser_mem_unit (u : User) (key attr salt : String) :
    0 ≤ bucketUser u key attr salt ∧ bucketUser u key attr salt ≤ 1 := by
  have hDpos : (0 : ℚ) < (0xfffffffffffffff : ℚ) := by norm_num
  unfold bucketUser
  cases h : bucketableStringValue (userValue u attr) with
  | none => norm_num
  | some id0 =>
      constructor
      · positivity
      · rw [div_le_one hDpos]
        have := parseHex_jsSubstring_le (sha1Hex (key ++ "." ++ salt ++ "." ++
          (match u.secondary with
           | some sv => if ldTruthy sv then id0 ++ "." ++ jsToString sv else id0
           | none => id0)))
        exact_mod_cast this

theorem bucketUser_golden_value :
    bucketUser { key := some (.str "userKeyA") } "hashKey" "key" "saltyA"
      = (486043891349154521 : ℚ) / 1152921504606846975 := by
  have hb : bucketUser { key := some (.str "userKeyA") } "hashKey" "key" "saltyA"
      = (parseHex (jsSubstring (sha1Hex "hashKey.saltyA.userKeyA") 15) : ℚ)
        / (0xfffffffffffffff : ℚ) := rfl
  have hn : parseHex (jsSubstring (sha1Hex "hashKey.saltyA.userKeyA") 15)
      = 486043891349154521 := by decide
  rw [hb, hn]; norm_num

theorem golden_value_tolerance :
    (0 : ℚ) ≤ (486043891349154521 : ℚ) / 1152921504606846975
    ∧ (486043891349154521 : ℚ) / 1152921504606846975 < 1
    ∧ abs ((486043891349154521 : ℚ) / 1152921504606846975 - 42157587 / 100000000)
        < 1 / 10 ^ 7 := by
  refine ⟨by norm_num, by norm_num, ?_⟩
  rw [abs_sub_lt_iff]
  constructor <;> norm_num

/-- C1 (amended): `bucketUser(user, scopeKey, attr, salt)` resolves `attr`
on the user (0 if absent or not bucketable), appends `'.' + secondary`
when `user.secondary` is truthy (not merely present), hashes
`scopeKey + '.' + salt + '.' + id` with SHA-1, parses the leading 15 hex
digits as an integer `n` and returns `n / 0xFFFFFFFFFFFFFFF`.  The result
lies in `[0, 1]` — the value 1 is reached exactly when all 15 leading hex
digits are `f`, an event no known input produces but one the construction
does not exclude — and the golden value for `userKeyA` holds (that bucket
also lies in `[0, 1)`). -/
theorem bucketUser_formula_range_golden :
    (∀ (u : User) (key attr salt : String),
        bucketUser u key attr salt =
          (match bucketableStringValue (userValue u attr) with
           | none => (0 : ℚ)
           | some id0 =>
               ((parseHex (jsSubstring (sha1Hex (key ++ "." ++ salt ++ "." ++
                   (match u.secondary with
                    | some sv => if ldTruthy sv then id0 ++ "." ++ jsToString sv else id0
                    | none => id0))) 15) : ℚ) / (0xfffffffffffffff : ℚ))))
    ∧ (∀ (u : User) (key attr salt : String),
        0 ≤ bucketUser u key attr salt ∧ bucketUser u key attr salt ≤ 1)
    ∧ bucketUser { key := some (.str "userKeyA") } "hashKey" "key" "saltyA"
        = (486043891349154521 : ℚ) / 1152921504606846975
    ∧ (0 : ℚ) ≤ (486043891349154521 : ℚ) / 1152921504606846975
    ∧ (486043891349154521 : ℚ) / 1152921504606846975 < 1
    ∧ abs ((486043891349154521 : ℚ) / 1152921504606846975 - 42157587 / 100000000)
        < 1 / 10 ^ 7 :=
  ⟨bucketUser_formula, bucketUser_mem_unit, bucketUser_golden_value,
    golden_value_tolerance.1, golden_value_tolerance.2.1, golden_value_tolerance.2.2⟩

/- ----------------------------------------------------------------- -/
/- Claim C7: variation-or-rollout resolution.                          -/
/- ----------------------------------------------------------------- -/

theorem partialWeight_cons (w : WeightedVariation) (rest : List WeightedVariation) (n : Nat) :
    partialWeight (w :: rest) (n + 1) = w.weight / 100000 + partialWeight rest n := by
  simp [partialWeight, List.take_succ_cons]

theorem rolloutLoop_characterization (b : ℚ) (ws : List WeightedVariation) :
    ∀ s : ℚ,
      (rolloutLoop b s ws = none ∧ ∀ j < ws.length, s + partialWeight ws (j + 1) ≤ b)
      ∨ (∃ i, i < ws.length ∧ rolloutLoop b s ws = some (ws.getD i wvDefault).variation
          ∧ b < s + partialWeight ws (i + 1)
          ∧ ∀ j < i, s + partialWeight ws (j + 1) ≤ b) := by
  induction ws with
  | nil =>
      intro s; left
      exact ⟨rfl, by intro j hj; simp at hj⟩
  | cons w rest ih =>
      intro s
      by_cases hb : b < s + w.weight / 100000
      · right
        refine ⟨0, by simp, ?_, ?_, by intro j hj; omega⟩
        · simp [rolloutLoop, hb]
        · rw [partialWeight_cons]
          simpa [partialWeight] using hb
      · have hstep : rolloutLoop b s (w :: rest) = rolloutLoop b (s + w.weight / 100000) rest := by
          simp [rolloutLoop, hb]
        rcases ih (s + w.weight / 100000) with ⟨hnone, hall⟩ | ⟨i, hi, heq, hlt, hprev⟩
        · left
          refine ⟨hstep.trans hnone, ?_⟩
          intro j hj
          cases j with
          | zero =>
              rw [partialWeight_cons]
              simpa [partialWeight] using le_of_not_lt hb
          | succ j =>
              rw [partialWeight_cons]
              have := hall j (by simpa using Nat.lt_of_succ_lt_succ hj)
              linarith
        · right
          refine ⟨i + 1, by simpa using Nat.succ_lt_succ hi, ?_, ?_, ?_⟩
          · rw [hstep, heq]; rfl
          · rw [partialWeight_cons]; linarith
          · intro j hj
            cases j with
            | zero =>
                rw [partialWeight_cons]
                simpa [partialWeight] using le_of_not_lt hb
            | succ j =>
                rw [partialWeight_cons]
                have := hprev j (Nat.lt_of_succ_lt_succ hj)
                linarith

theorem getLast?_eq_getD (ws : List WeightedVariation) (h : ws ≠ []) :
    ws.getLast? = some (ws.getD (ws.length - 1) wvDefault) := by
  induction ws with
  | nil => exact absurd rfl h
  | cons w rest ih =>
      cases rest with
      | nil => rfl
      | cons w2 rest2 =>
          rw [List.getLast?_cons_cons, ih (by simp)]
          simp [List.getD_cons_succ]

theorem c7_code_side :
    variationForUser
      { variation := none,
        rollout := some { variations := some [{ variation := some 0, weight := 11561 },
                                              { variation := some 1, weight := 88439 }],
                          bucketBy := some "" } }
      { key := some (.str "u"), custom := some [("", .str "attrv")] }
      { key := "F", salt := "S" }
      = some 0 := by
  have hbc : bucketUser { key := some (.str "u"), custom := some [("", .str "attrv")] }
      "F" (jsOrKey (some "")) "S"
      = (parseHex (jsSubstring (sha1Hex "F.S.u") 15) : ℚ) / (0xfffffffffffffff : ℚ) := rfl
  have hnc : parseHex (jsSubstring (sha1Hex "F.S.u") 15) = 133280057516395206 := by decide
  have hlt : bucketUser { key := some (.str "u"), custom := some [("", .str "attrv")] }
      "F" (jsOrKey (some "")) "S" < 0 + (11561 : ℚ) / 100000 := by
    rw [hbc, hnc]; norm_num
  have h0 : rolloutLoop
      (bucketUser { key := some (.str "u"), custom := some [("", .str "attrv")] }
        "F" (jsOrKey (some "")) "S") 0
      [{ variation := some 0, weight := 11561 }, { variation := some 1, weight := 88439 }]
      = some (some 0) := by
    show (if bucketUser { key := some (.str "u"), custom := some [("", .str "attrv")] }
        "F" (jsOrKey (some "")) "S" < 0 + (11561 : ℚ) / 100000
        then some (some (0 : Int)) else _) = some (some 0)
    rw [if_pos hlt]
  show (match rolloutLoop
      (bucketUser { key := some (.str "u"), custom := some [("", .str "attrv")] }
        "F" (jsOrKey (some "")) "S") 0
      [{ variation := some 0, weight := 11561 }, { variation := some 1, weight := 88439 }] with
    | some v => v
    | none => _) = some 0
  rw [h0]

theorem c7_claim_side :
    variationForUserClaim
      { variation := none,
        rollout := some { variations := some [{ variation := some 0, weight := 11561 },
                                              { variation := some 1, weight := 88439 }],
                          bucketBy := some "" } }
      { key := some (.str "u"), custom := some [("", .str "attrv")] }
      { key := "F", salt := "S" }
      = some 1 := by
  have hbs : bucketUser { key := some (.str "u"), custom := some [("", .str "attrv")] }
      "F" (Option.getD (some "") "key") "S"
      = (parseHex (jsSubstring (sha1Hex "F.S.attrv") 15) : ℚ) / (0xfffffffffffffff : ℚ) := rfl
  have hns : parseHex (jsSubstring (sha1Hex "F.S.attrv") 15) = 448156724578436150 := by decide
  have hge : ¬(bucketUser { key := some (.str "u"), custom := some [("", .str "attrv")] }
      "F" (Option.getD (some "") "key") "S" < 0 + (11561 : ℚ) / 100000) := by
    rw [hbs, hns]; norm_num
  have hlt2 : bucketUser { key := some (.str "u"), custom := some [("", .str "attrv")] }
      "F" (Option.getD (some "") "key") "S" < 0 + (11561 : ℚ) / 100000 + 88439 / 100000 := by
    rw [hbs, hns]; norm_num
  have h1 : rolloutLoop
      (bucketUser { key := some (.str "u"), custom := some [("", .str "attrv")] }
        "F" (Option.getD (some "") "key") "S") 0
      [{ variation := some 0, weight := 11561 }, { variation := some 1, weight := 88439 }]
      = some (some 1) := by
    show (if bucketUser { key := some (.str "u"), custom := some [("", .str "attrv")] }
        "F" (Option.getD (some "") "key") "S" < 0 + (11561 : ℚ) / 100000
        then some (some (0 : Int)) else _) = some (some 1)
    rw [if_neg hge]
    show (if bucketUser { key := some (.str "u"), custom := some [("", .str "attrv")] }
        "F" (Option.getD (some "") "key") "S" < 0 + (11561 : ℚ) / 100000 + 88439 / 100000
        then some (some (1 : Int)) else _) = some (some 1)
    rw [if_pos hlt2]
  show (match rolloutLoop
      (bucketUser { key := some (.str "u"), custom := some [("", .str "attrv")] }
        "F" (Option.getD (some "") "key") "S") 0
      [{ variation := some 0, weight := 11561 }, { variation := some 1, weight := 88439 }] with
    | some v => v
    | none => _) = some 1
  rw [h1]

/-- C7, counterexample: the code computes the rollout bucket with
`rollout.bucketBy || 'key'`, so an empty-string `bucketBy` falls back to
bucketing by the user key; the claim says `rollout.bucketBy ?? 'key'`,
which keeps the empty string and buckets by the custom attribute named
`""`.  For this rollout the two bucket values fall on opposite sides of
the first weight boundary, so the code picks variation 0 while the
claimed rule picks variation 1. -/
theorem variationForUser_bucketBy_counterexample :
    variationForUser
      { variation := none,
        rollout := some { variations := some [{ variation := some 0, weight := 11561 },
                                              { variation := some 1, weight := 88439 }],
                          bucketBy := some "" } }
      { key := some (.str "u"), custom := some [("", .str "attrv")] }
      { key := "F", salt := "S" }
      = some 0
    ∧ variationForUserClaim
      { variation := none,
        rollout := some { variations := some [{ variation := some 0, weight := 11561 },
                                              { variation := some 1, weight := 88439 }],
                          bucketBy := some "" } }
      { key := some (.str "u"), custom := some [("", .str "attrv")] }
      { key := "F", salt := "S" }
      = some 1
    ∧ (some (0 : Int)) ≠ some 1 :=
  ⟨c7_code_side, c7_claim_side, by decide⟩

/-- C7 (amended): for a variation-or-rollout `r`: a present `r.variation`
is returned as-is; otherwise, with a rollout carrying a non-empty
`variations` list, the engine buckets by `rollout.bucketBy || 'key'`
(empty-string `bucketBy` falls back to `'key'` — not `?? 'key'`) and
returns the first variation whose cumulative weight/100000 strictly
exceeds the bucket, or the last variation when the bucket is not below the
final cumulative sum (never an error); otherwise the result is the error
`Variation/rollout object with no variation or rollout` with detail
`errorResult(MALFORMED_FLAG)`. -/
theorem variationForUser_characterization (r : VariationOrRollout) (u : User) (flag : FeatureFlag) :
    (∀ i, r.variation = some i → variationForUser r u flag = some i)
    ∧ (∀ ro ws, r.variation = none → r.rollout = some ro → ro.variations = some ws →
        0 < ws.length →
        ((∃ i, i < ws.length
            ∧ variationForUser r u flag = (ws.getD i wvDefault).variation
            ∧ bucketUser u flag.key (jsOrKey ro.bucketBy) flag.salt < partialWeight ws (i + 1)
            ∧ ∀ j < i, partialWeight ws (j + 1) ≤ bucketUser u flag.key (jsOrKey ro.bucketBy) flag.salt)
          ∨ ((∀ j < ws.length, partialWeight ws (j + 1) ≤ bucketUser u flag.key (jsOrKey ro.bucketBy) flag.salt)
              ∧ variationForUser r u flag = (ws.getD (ws.length - 1) wvDefault).variation)))
    ∧ (r.variation = none →
        (r.rollout = none ∨ ∃ ro, r.rollout = some ro ∧ (ro.variations = none ∨ ro.variations = some [])) →
        ∀ reason, getResultForVariationOrRollout (some r) u flag reason
          = .ok ⟨some "Variation/rollout object with no variation or rollout",
              errorResult "MALFORMED_FLAG"⟩) := by
  refine ⟨?_, ?_, ?_⟩
  · intro i h
    simp [variationForUser, h]
  · intro ro ws h0 hro hws hlen
    simp only [variationForUser, h0, hro, hws]
    rw [if_pos hlen]
    rcases rolloutLoop_characterization
        (bucketUser u flag.key (jsOrKey ro.bucketBy) flag.salt) ws 0 with
      ⟨hnone, hall⟩ | ⟨i, hi, heq, hlt, hprev⟩
    · right
      constructor
      · intro j hj
        have := hall j hj
        linarith
      · rw [hnone, getLast?_eq_getD ws (by intro hemp; rw [hemp] at hlen; simp at hlen)]
    · left
      refine ⟨i, hi, ?_, by linarith, ?_⟩
      · rw [heq]
      · intro j hj
        have := hprev j hj
        linarith
  · intro h0 hro reason
    rcases hro with hro | ⟨ro, hro, hv⟩
    · simp [getResultForVariationOrRollout, variationForUser, h0, hro]
    · rcases hv with hv | hv <;>
        simp [getResultForVariationOrRollout, variationForUser, h0, hro, hv]

/-- C7, witness for the amended theorem: a fixed-variation record resolves
to its own index. -/
theorem variationForUser_characterization_witness :
    variationForUser { variation := some 5 } {} {} = some 5 :=
  (variationForUser_characterization { variation := some 5 } {} {}).1 5 rfl
theorem lookupAssoc_setAssoc_self (m : List (String × α)) (k : String) (v : α) :
    lookupAssoc (setAssoc m k v) k = some v := by
  induction m with
  | nil => simp [setAssoc, lookupAssoc]
  | cons kv rest ih =>
      obtain ⟨k', v'⟩ := kv
      simp only [setAssoc]
      by_cases h : k' = k
      · rw [if_pos h]; simp [lookupAssoc]
      · rw [if_neg h]
        simp only [lookupAssoc]
        rw [if_neg h, ih]

theorem lookupAssoc_setAssoc_ne (m : List (String × α)) (k k' : String) (v : α)
    (h : k' ≠ k) :
    lookupAssoc (setAssoc m k v) k' = lookupAssoc m k' := by
  induction m with
  | nil =>
      simp only [setAssoc, lookupAssoc]
      rw [if_neg (fun hh => h hh.symm)]
  | cons kv rest ih =>
      obtain ⟨k'', v''⟩ := kv
      simp only [setAssoc]
      by_cases h2 : k'' = k
      · rw [if_pos h2]
        subst h2
        simp only [lookupAssoc]
        rw [if_neg (fun hh => h hh.symm), if_neg (fun hh => h hh.symm)]
      · rw [if_neg h2]
        simp only [lookupAssoc]
        by_cases h3 : k'' = k'
        · rw [if_pos h3, if_pos h3]
        · rw [if_neg h3, if_neg h3, ih]

theorem entryAt_some_elim {s : StoreState} {kind : DataKind} {key : String}
    {e : Option StoreItem} (h : s.entryAt kind key = some e) :
    ∃ items, lookupAssoc s.allData kind.nspace = some items
      ∧ lookupAssoc items key = some e := by
  unfold StoreState.entryAt at h
  cases hns : lookupAssoc s.allData kind.nspace with
  | none => rw [hns] at h; simp [lookupAssoc] at h
  | some items => rw [hns] at h; exact ⟨items, rfl, h⟩

theorem upsert_entryAt (s : StoreState) (kind : DataKind) (item : StoreItem) (k : String)
    (hns : (lookupAssoc s.allData kind.nspace).isSome) :
    (s.upsert kind item).entryAt kind k =
      if jsPropKey item.key = k then
        match s.entryAt kind k with
        | none => some (some (clone item))
        | some none => some none
        | some (some old) =>
            if old.version < item.version then some (some (clone item)) else some (some old)
      else s.entryAt kind k := by
  obtain ⟨items, hitems⟩ := Option.isSome_iff_exists.mp hns
  have hentry : ∀ k0, s.entryAt kind k0 = lookupAssoc items k0 := by
    intro k0; unfold StoreState.entryAt; rw [hitems]; rfl
  by_cases hkk : jsPropKey item.key = k
  · rw [if_pos hkk, ← hkk, hentry]
    cases hk : lookupAssoc items (jsPropKey item.key) with
    | none =>
        simp only [StoreState.upsert, hitems, hk]
        simp only [StoreState.entryAt, lookupAssoc_setAssoc_self, Option.getD_some]
    | some oldOpt =>
        cases oldOpt with
        | none =>
            simp only [StoreState.upsert, hitems, hk]
            rw [hentry, hk]
        | some old =>
            by_cases hv : old.version < item.version
            · simp only [StoreState.upsert, hitems, hk, if_pos hv]
              simp only [StoreState.entryAt, lookupAssoc_setAssoc_self, Option.getD_some]
            · simp only [StoreState.upsert, hitems, hk, if_neg hv]
              rw [hentry, hk]
  · rw [if_neg hkk]
    cases hk : lookupAssoc items (jsPropKey item.key) with
    | none =>
        simp only [StoreState.upsert, hitems, hk]
        simp only [StoreState.entryAt, lookupAssoc_setAssoc_self, Option.getD_some]
        rw [lookupAssoc_setAssoc_ne _ _ _ _ (Ne.symm hkk), hitems, Option.getD_some]
    | some oldOpt =>
        cases oldOpt with
        | none => simp only [StoreState.upsert, hitems, hk]
        | some old =>
            by_cases hv : old.version < item.version
            · simp only [StoreState.upsert, hitems, hk, if_pos hv]
              simp only [StoreState.entryAt, lookupAssoc_setAssoc_self, Option.getD_some]
              rw [lookupAssoc_setAssoc_ne _ _ _ _ (Ne.symm hkk), hitems, Option.getD_some]
            · simp only [StoreState.upsert, hitems, hk, if_neg hv]

theorem delete_entryAt (s : StoreState) (kind : DataKind) (key : String) (version : Nat)
    (k : String) (hns : (lookupAssoc s.allData kind.nspace).isSome) :
    (s.delete kind key version).entryAt kind k =
      if key = k then
        match s.entryAt kind k with
        | some (some old) =>
            if old.version < version then some (some (deletedItem version))
            else some (some old)
        | _ => some (some (deletedItem version))
      else s.entryAt kind k := by
  obtain ⟨items, hitems⟩ := Option.isSome_iff_exists.mp hns
  have hentry : ∀ k0, s.entryAt kind k0 = lookupAssoc items k0 := by
    intro k0; unfold StoreState.entryAt; rw [hitems]; rfl
  by_cases hkk : key = k
  · rw [if_pos hkk, ← hkk, hentry]
    cases hk : lookupAssoc items key with
    | none =>
        simp only [StoreState.delete, hitems, hk]
        simp only [StoreState.entryAt, lookupAssoc_setAssoc_self, Option.getD_some]
    | some oldOpt =>
        cases oldOpt with
        | none =>
            simp only [StoreState.delete, hitems, hk]
            simp only [StoreState.entryAt, lookupAssoc_setAssoc_self, Option.getD_some]
        | some old =>
            by_cases hv : old.version < version
            · simp only [StoreState.delete, hitems, hk, if_pos hv]
              simp only [StoreState.entryAt, lookupAssoc_setAssoc_self, Option.getD_some]
            · simp only [StoreState.delete, hitems, hk, if_neg hv]
              rw [hentry, hk]
  · rw [if_neg hkk]
    cases hk : lookupAssoc items key with
    | none =>
        simp only [StoreState.delete, hitems, hk]
        simp only [StoreState.entryAt, lookupAssoc_setAssoc_self, Option.getD_some]
        rw [lookupAssoc_setAssoc_ne _ _ _ _ (Ne.symm hkk), hitems, Option.getD_some]
    | some oldOpt =>
        cases oldOpt with
        | none =>
            simp only [StoreState.delete, hitems, hk]
            simp only [StoreState.entryAt, lookupAssoc_setAssoc_self, Option.getD_some]
            rw [lookupAssoc_setAssoc_ne _ _ _ _ (Ne.symm hkk), hitems, Option.getD_some]
        | some old =>
            by_cases hv : old.version < version
            · simp only [StoreState.delete, hitems, hk, if_pos hv]
              simp only [StoreState.entryAt, lookupAssoc_setAssoc_self, Option.getD_some]
              rw [lookupAssoc_setAssoc_ne _ _ _ _ (Ne.symm hkk), hitems, Option.getD_some]
            · simp only [StoreState.delete, hitems, hk, if_neg hv]

theorem versionAt_of_entry_none (t : StoreState) (kind : DataKind) (k : String)
    (h : t.entryAt kind k = none) : t.versionAt kind k = none := by
  unfold StoreState.versionAt
  unfold StoreState.entryAt at h
  rw [h]

theorem versionAt_of_entry_null (t : StoreState) (kind : DataKind) (k : String)
    (h : t.entryAt kind k = some none) : t.versionAt kind k = none := by
  unfold StoreState.versionAt
  unfold StoreState.entryAt at h
  rw [h]

theorem versionAt_of_entry_item (t : StoreState) (kind : DataKind) (k : String)
    (it : StoreItem) (h : t.entryAt kind k = some (some it)) :
    t.versionAt kind k = some it.version := by
  unfold StoreState.versionAt
  unfold StoreState.entryAt at h
  rw [h]

theorem versionAt_eq_of_entry_eq (t u : StoreState) (kind : DataKind) (k : String)
    (h : t.entryAt kind k = u.entryAt kind k) :
    t.versionAt kind k = u.versionAt kind k := by
  unfold StoreState.versionAt
  unfold StoreState.entryAt at h
  rw [h]

theorem upsert_preserves_ns (s : StoreState) (kind : DataKind) (item : StoreItem)
    (hns : (lookupAssoc s.allData kind.nspace).isSome = true) :
    (lookupAssoc (s.upsert kind item).allData kind.nspace).isSome = true := by
  obtain ⟨items, hitems⟩ := Option.isSome_iff_exists.mp hns
  cases hk : lookupAssoc items (jsPropKey item.key) with
  | none =>
      simp only [StoreState.upsert, hitems, hk, lookupAssoc_setAssoc_self,
        Option.isSome_some]
  | some oldOpt =>
      cases oldOpt with
      | none => simp only [StoreState.upsert, hitems, hk]; rfl
      | some old =>
          by_cases hv : old.version < item.version
          · simp only [StoreState.upsert, hitems, hk, if_pos hv,
              lookupAssoc_setAssoc_self, Option.isSome_some]
          · simp only [StoreState.upsert, hitems, hk, if_neg hv]; rfl

theorem delete_preserves_ns (s : StoreState) (kind : DataKind) (key : String)
    (version : Nat)
    (hns : (lookupAssoc s.allData kind.nspace).isSome = true) :
    (lookupAssoc (s.delete kind key version).allData kind.nspace).isSome = true := by
  obtain ⟨items, hitems⟩ := Option.isSome_iff_exists.mp hns
  cases hk : lookupAssoc items key with
  | none =>
      simp only [StoreState.delete, hitems, hk, lookupAssoc_setAssoc_self,
        Option.isSome_some]
  | some oldOpt =>
      cases oldOpt with
      | none =>
          simp only [StoreState.delete, hitems, hk, lookupAssoc_setAssoc_self,
            Option.isSome_some]
      | some old =>
          by_cases hv : old.version < version
          · simp only [StoreState.delete, hitems, hk, if_pos hv,
              lookupAssoc_setAssoc_self, Option.isSome_some]
          · simp only [StoreState.delete, hitems, hk, if_neg hv]; rfl

theorem upsert_preserves_nonnull (s : StoreState) (kind : DataKind) (item : StoreItem)
    (k : String)
    (hns : (lookupAssoc s.allData kind.nspace).isSome = true)
    (hnn : s.entryAt kind k ≠ some none) :
    (s.upsert kind item).entryAt kind k ≠ some none := by
  by_cases hkk : jsPropKey item.key = k
  · cases he : s.entryAt kind k with
    | none =>
        simp only [upsert_entryAt s kind item k hns, hkk, he]
        simp
    | some oldOpt =>
        cases oldOpt with
        | none => exact absurd he hnn
        | some old =>
            by_cases hv : old.version < item.version
            · simp only [upsert_entryAt s kind item k hns, hkk, he, hv]
              simp
            · simp only [upsert_entryAt s kind item k hns, hkk, he, hv]
              simp
  · rw [upsert_entryAt s kind item k hns, if_neg hkk]; exact hnn

theorem delete_preserves_nonnull (s : StoreState) (kind : DataKind) (key : String)
    (version : Nat) (k : String)
    (hns : (lookupAssoc s.allData kind.nspace).isSome = true)
    (hnn : s.entryAt kind k ≠ some none) :
    (s.delete kind key version).entryAt kind k ≠ some none := by
  have hstep := delete_entryAt s kind key version k hns
  by_cases hkk : key = k
  · rw [if_pos hkk] at hstep
    cases he : s.entryAt kind k with
    | none => simp only [he] at hstep; rw [hstep]; simp
    | some oldOpt =>
        cases oldOpt with
        | none => simp only [he] at hstep; rw [hstep]; simp
        | some old =>
            by_cases hv : old.version < version
            · simp only [he, hv] at hstep; rw [hstep]; simp
            · simp only [he, hv] at hstep; rw [hstep]; simp
  · rw [if_neg hkk] at hstep; rw [hstep]; exact hnn

theorem applyUpdateOp_versionAt (s : StoreState) (kind : DataKind) (k : String)
    (op : UpdateOp)
    (hns : (lookupAssoc s.allData kind.nspace).isSome = true)
    (hnn : s.entryAt kind k ≠ some none) :
    (applyUpdateOp kind s op).versionAt kind k =
      if op.targetKey = k then
        some (max ((s.versionAt kind k).getD 0) op.opVersion)
      else s.versionAt kind k := by
  cases op with
  | upsert item =>
      have happ : applyUpdateOp kind s (UpdateOp.upsert item) = s.upsert kind item := rfl
      have hstep := upsert_entryAt s kind item k hns
      by_cases hkk : jsPropKey item.key = k
      · rw [if_pos hkk] at hstep
        rw [happ, if_pos (show UpdateOp.targetKey (UpdateOp.upsert item) = k from hkk)]
        cases he : s.entryAt kind k with
        | none =>
            simp only [he] at hstep
            rw [versionAt_of_entry_item _ _ _ _ hstep,
              versionAt_of_entry_none _ _ _ he]
            simp [clone, UpdateOp.opVersion]
        | some oldOpt =>
            cases oldOpt with
            | none => exact absurd he hnn
            | some old =>
                by_cases hv : old.version < item.version
                · simp only [he, hv, if_true] at hstep
                  rw [versionAt_of_entry_item _ _ _ _ hstep,
                    versionAt_of_entry_item _ _ _ _ he]
                  simp only [clone, UpdateOp.opVersion, Option.getD_some,
                    Option.some.injEq]
                  omega
                · simp only [he, hv, if_false] at hstep
                  rw [versionAt_of_entry_item _ _ _ _ hstep,
                    versionAt_of_entry_item _ _ _ _ he]
                  simp only [UpdateOp.opVersion, Option.getD_some, Option.some.injEq]
                  omega
      · rw [if_neg hkk] at hstep
        rw [happ, if_neg (show ¬ UpdateOp.targetKey (UpdateOp.upsert item) = k from hkk)]
        exact versionAt_eq_of_entry_eq _ _ _ _ hstep
  | delete key v =>
      have happ : applyUpdateOp kind s (UpdateOp.delete key v) = s.delete kind key v := rfl
      have hstep := delete_entryAt s kind key v k hns
      by_cases hkk : key = k
      · rw [if_pos hkk] at hstep
        rw [happ, if_pos (show UpdateOp.targetKey (UpdateOp.delete key v) = k from hkk)]
        cases he : s.entryAt kind k with
        | none =>
            simp only [he] at hstep
            rw [versionAt_of_entry_item _ _ _ _ hstep,
              versionAt_of_entry_none _ _ _ he]
            simp [deletedItem, UpdateOp.opVersion]
        | some oldOpt =>
            cases oldOpt with
            | none => exact absurd he hnn
            | some old =>
                by_cases hv : old.version < v
                · simp only [he, hv, if_true] at hstep
                  rw [versionAt_of_entry_item _ _ _ _ hstep,
                    versionAt_of_entry_item _ _ _ _ he]
                  simp only [deletedItem, UpdateOp.opVersion, Option.getD_some,
                    Option.some.injEq]
                  omega
                · simp only [he, hv, if_false] at hstep
                  rw [versionAt_of_entry_item _ _ _ _ hstep,
                    versionAt_of_entry_item _ _ _ _ he]
                  simp only [UpdateOp.opVersion, Option.getD_some, Option.some.injEq]
                  omega
      · rw [if_neg hkk] at hstep
        rw [happ, if_neg (show ¬ UpdateOp.targetKey (UpdateOp.delete key v) = k from hkk)]
        exact versionAt_eq_of_entry_eq _ _ _ _ hstep

theorem runUpdateOps_versionAt (kind : DataKind) (k : String) (ops : List UpdateOp) :
    ∀ s : StoreState,
      (lookupAssoc s.allData kind.nspace).isSome = true →
      s.entryAt kind k ≠ some none →
      (runUpdateOps kind s ops).versionAt kind k =
        ops.foldl (fun acc op =>
          if op.targetKey = k then some (max (acc.getD 0) op.opVersion) else acc)
          (s.versionAt kind k) := by
  induction ops with
  | nil => intro s _ _; rfl
  | cons op rest ih =>
      intro s hns hnn
      have hns' : (lookupAssoc (applyUpdateOp kind s op).allData kind.nspace).isSome
          = true := by
        cases op with
        | upsert item => exact upsert_preserves_ns s kind item hns
        | delete key v => exact delete_preserves_ns s kind key v hns
      have hnn' : (applyUpdateOp kind s op).entryAt kind k ≠ some none := by
        cases op with
        | upsert item => exact upsert_preserves_nonnull s kind item k hns hnn
        | delete key v => exact delete_preserves_nonnull s kind key v k hns hnn
      have hrun : runUpdateOps kind s (op :: rest) =
          runUpdateOps kind (applyUpdateOp kind s op) rest := rfl
      rw [hrun, ih _ hns' hnn', List.foldl_cons,
        applyUpdateOp_versionAt s kind k op hns hnn]

theorem applyUpdateOp_noop (s : StoreState) (kind : DataKind) (op : UpdateOp)
    (old : StoreItem)
    (he : s.entryAt kind (op.targetKey) = some (some old))
    (hle : op.opVersion ≤ old.version) :
    applyUpdateOp kind s op = s := by
  cases op with
  | upsert item =>
      obtain ⟨items, hitems, hk⟩ := entryAt_some_elim he
      have hk' : lookupAssoc items (jsPropKey item.key) = some (some old) := hk
      have hnlt : ¬ old.version < item.version := Nat.not_lt.mpr hle
      simp only [applyUpdateOp, StoreState.upsert, hitems, hk', hnlt, if_false]
  | delete key v =>
      obtain ⟨items, hitems, hk⟩ := entryAt_some_elim he
      have hk' : lookupAssoc items key = some (some old) := hk
      have hnlt : ¬ old.version < v := Nat.not_lt.mpr hle
      simp only [applyUpdateOp, StoreState.delete, hitems, hk', hnlt, if_false]

theorem get_none_of_deleted (s : StoreState) (kind : DataKind) (key : String)
    (d : StoreItem) (he : s.entryAt kind key = some (some d))
    (hd : d.deleted = true) : s.get kind key = none := by
  have hget : s.get kind key =
      (match s.entryAt kind key with
       | none => none
       | some none => none
       | some (some item) => if item.deleted then none else some item) := rfl
  rw [hget]
  simp only [he, hd, if_true]

/-- **C2** (amended).  Over upsert/delete sequences against a store whose
namespace map for the kind exists and whose entry at the key is not a
stored `null`, the retained version is the running maximum of the stored
version and every version observed for that key; and an upsert or delete
whose version does not exceed the version of the item stored at its target
key leaves the store unchanged. -/
theorem store_version_max_characterization (kind : DataKind) (k : String)
    (s : StoreState) (ops : List UpdateOp)
    (hns : (lookupAssoc s.allData kind.nspace).isSome = true)
    (hnn : s.entryAt kind k ≠ some none) :
    (runUpdateOps kind s ops).versionAt kind k =
      ops.foldl (fun acc op =>
        if op.targetKey = k then some (max (acc.getD 0) op.opVersion) else acc)
        (s.versionAt kind k)
    ∧ ∀ (op : UpdateOp) (old : StoreItem),
        s.entryAt kind (op.targetKey) = some (some old) →
        op.opVersion ≤ old.version →
        applyUpdateOp kind s op = s :=
  ⟨runUpdateOps_versionAt kind k ops s hns hnn,
   fun op old he hle => applyUpdateOp_noop s kind op old he hle⟩

theorem store_version_max_characterization_witness :
    (runUpdateOps DataKind.features
        ⟨[("features", [("k", some ⟨some "k", 5, false, none⟩)])], true⟩
        [.upsert ⟨some "k", 7, false, none⟩, .delete "k" 6]).versionAt
      DataKind.features "k" = some 7 := by
  have h := store_version_max_characterization DataKind.features "k"
      ⟨[("features", [("k", some ⟨some "k", 5, false, none⟩)])], true⟩
      [.upsert ⟨some "k", 7, false, none⟩, .delete "k" 6]
      (by decide) (by decide)
  rw [h.1]
  decide

theorem store_version_not_max_counterexample :
    (runStoreOps {} [.delete DataKind.features "k" 100,
        .upsert DataKind.features ⟨some "k", 1, false, none⟩]).versionAt
      DataKind.features "k" = some 1
    ∧ maxObservedVersion DataKind.features "k"
        [.delete DataKind.features "k" 100,
         .upsert DataKind.features ⟨some "k", 1, false, none⟩] = some 100 := by
  constructor
  · decide
  · decide

/-- **C3** (amended).  When the namespace map for the kind exists and the
delete wins over whatever is stored at the key (nothing, a stored `null`,
a tombstone, or an item that is older than the delete's version), a
`delete(kind, key, v)` followed by an `upsert(kind, x)` with
`x.version ≤ v` leaves `get(kind, key)` returning `null`. -/
theorem delete_then_upsert_get_none (s : StoreState) (kind : DataKind)
    (key : String) (v : Nat) (x : StoreItem)
    (hns : (lookupAssoc s.allData kind.nspace).isSome = true)
    (hwin : ∀ old : StoreItem, s.entryAt kind key = some (some old) →
        old.deleted = true ∨ old.version < v)
    (hx : x.version ≤ v) :
    ((s.delete kind key v).upsert kind x).get kind key = none := by
  have h1 := delete_entryAt s kind key v key hns
  rw [if_pos rfl] at h1
  obtain ⟨d, hd_entry, hd_del, hd_ver⟩ :
      ∃ d : StoreItem, (s.delete kind key v).entryAt kind key = some (some d)
        ∧ d.deleted = true ∧ x.version ≤ d.version := by
    cases he : s.entryAt kind key with
    | none =>
        simp only [he] at h1
        exact ⟨deletedItem v, h1, rfl, hx⟩
    | some oldOpt =>
        cases oldOpt with
        | none =>
            simp only [he] at h1
            exact ⟨deletedItem v, h1, rfl, hx⟩
        | some old =>
            by_cases hv : old.version < v
            · simp only [he, hv, if_true] at h1
              exact ⟨deletedItem v, h1, rfl, hx⟩
            · simp only [he, hv, if_false] at h1
              rcases hwin old he with hdel | hlt
              · exact ⟨old, h1, hdel, le_trans hx (Nat.not_lt.mp hv)⟩
              · exact absurd hlt hv
  have hns' : (lookupAssoc (s.delete kind key v).allData kind.nspace).isSome = true :=
    delete_preserves_ns s kind key v hns
  have h2 := upsert_entryAt (s.delete kind key v) kind x key hns'
  by_cases hxk : jsPropKey x.key = key
  · rw [if_pos hxk] at h2
    simp only [hd_entry] at h2
    rw [if_neg (Nat.not_lt.mpr hd_ver)] at h2
    exact get_none_of_deleted _ _ _ d h2 hd_del
  · rw [if_neg hxk] at h2
    exact get_none_of_deleted _ _ _ d (h2.trans hd_entry) hd_del

theorem delete_then_upsert_get_none_witness :
    (((⟨[("features", [])], true⟩ : StoreState).delete DataKind.features "k" 5).upsert
        DataKind.features ⟨some "k", 3, false, none⟩).get DataKind.features "k"
      = none :=
  delete_then_upsert_get_none ⟨[("features", [])], true⟩ DataKind.features "k" 5
    ⟨some "k", 3, false, none⟩ (by decide)
    (fun _ h => Option.noConfusion h) (by decide)

theorem delete_then_upsert_tombstone_lost_counterexample :
    ((({} : StoreState).delete DataKind.features "k" 5).upsert DataKind.features
        ⟨some "k", 3, false, none⟩).get DataKind.features "k" =
      some ⟨some "k", 3, false, none⟩ := by decide

/-- **C10**.  A stored `null` entry is treated asymmetrically: any upsert
leaves the entry a `null` (and an upsert keyed at the entry leaves the
whole store untouched), while a delete replaces it with the tombstone
`{version: v, deleted: true}`. -/
theorem store_null_entry_asymmetry (s : StoreState) (kind : DataKind) (key : String)
    (h : s.entryAt kind key = some none) :
    (∀ item : StoreItem, (s.upsert kind item).entryAt kind key = some none)
    ∧ (∀ item : StoreItem, jsPropKey item.key = key → s.upsert kind item = s)
    ∧ ∀ v : Nat, (s.delete kind key v).entryAt kind key =
        some (some (deletedItem v)) := by
  obtain ⟨items, hitems, hk⟩ := entryAt_some_elim h
  have hns : (lookupAssoc s.allData kind.nspace).isSome = true := by
    rw [hitems]; rfl
  refine ⟨?_, ?_, ?_⟩
  · intro item
    have h2 := upsert_entryAt s kind item key hns
    by_cases hxk : jsPropKey item.key = key
    · rw [if_pos hxk] at h2
      simp only [h] at h2
      exact h2
    · rw [if_neg hxk] at h2
      exact h2.trans h
  · intro item hkey
    have hk' : lookupAssoc items (jsPropKey item.key) = some none := by
      rw [hkey]; exact hk
    simp only [StoreState.upsert, hitems, hk']
  · intro v
    have h3 := delete_entryAt s kind key v key hns
    rw [if_pos rfl] at h3
    simp only [h] at h3
    exact h3

theorem store_null_entry_asymmetry_witness :
    ((⟨[("features", [("k", none)])], true⟩ : StoreState).upsert DataKind.features
        ⟨some "k", 99, false, none⟩ = ⟨[("features", [("k", none)])], true⟩)
    ∧ ((⟨[("features", [("k", none)])], true⟩ : StoreState).delete
          DataKind.features "k" 7).entryAt DataKind.features "k"
        = some (some (deletedItem 7)) :=
  ⟨(store_null_entry_asymmetry ⟨[("features", [("k", none)])], true⟩
      DataKind.features "k" (by decide)).2.1 ⟨some "k", 99, false, none⟩ (by decide),
   (store_null_entry_asymmetry ⟨[("features", [("k", none)])], true⟩
      DataKind.features "k" (by decide)).2.2 7⟩

/-- **C8**.  An off flag carrying no `variations` array makes `evaluate`
throw; `variationInternal`'s catch block logs without returning, so it
yields `undefined` rather than a detail carrying the default value, and
`client.variation`'s read of `.value` then throws a `TypeError` — the
caller gets an exception, not the default. -/
theorem variation_missing_variations_throws :
    clientVariation noVariationsCtx 5 "feature" (some { key := some (.str "u") })
        (.str "d")
      = .error "TypeError: cannot read property value of undefined"
    ∧ variationInternal noVariationsCtx 5 "feature" (some { key := some (.str "u") })
        (.str "d") = none :=
  ⟨rfl, rfl⟩

theorem processStreamEvent_closed (st : StreamState) (ev : StreamEvent)
    (h : st.closed = true) : processStreamEvent st ev = st := by
  delta processStreamEvent
  rw [h, if_pos rfl]

theorem processStreamEvent_cb_closed (st : StreamState) (ev : StreamEvent)
    (h : st.closed = false) :
    (processStreamEvent st ev).cbCalls.length =
      st.cbCalls.length + (if cbTriggering ev then 1 else 0)
    ∧ (processStreamEvent st ev).closed = shutsDown ev := by
  cases ev with
  | put e =>
      cases e with
      | none =>
          have hev : processStreamEvent st (.put none)
              = cbError st "Unexpected payload from event stream" := by
            delta processStreamEvent
            rw [h, if_neg Bool.false_ne_true]
          rw [hev]
          simp [cbError, h, show cbTriggering (.put none) = true from rfl,
            show shutsDown (.put none) = false from rfl]
      | some ex =>
          cases ex with
          | error u =>
              have hev : processStreamEvent st (.put (some (.error u)))
                  = cbError st "Malformed JSON data in event stream" := by
                delta processStreamEvent
                rw [h, if_neg Bool.false_ne_true]
              rw [hev]
              simp [cbError, h,
                show cbTriggering (.put (some (.error u))) = true from rfl,
                show shutsDown (.put (some (.error u))) = false from rfl]
          | ok d =>
              have hev : processStreamEvent st (.put (some (.ok d)))
                  = ⟨st.store.init [("features", d.flags), ("segments", d.segments)],
                      st.cbCalls ++ [none], st.closed⟩ := by
                delta processStreamEvent
                rw [h, if_neg Bool.false_ne_true]
              rw [hev]
              simp [h, show cbTriggering (.put (some (.ok d))) = true from rfl,
                show shutsDown (.put (some (.ok d))) = false from rfl]
  | patch e =>
      cases e with
      | none =>
          have hev : processStreamEvent st (.patch none)
              = cbError st "Unexpected payload from event stream" := by
            delta processStreamEvent
            rw [h, if_neg Bool.false_ne_true]
          rw [hev]
          simp [cbError, h, show cbTriggering (.patch none) = true from rfl,
            show shutsDown (.patch none) = false from rfl]
      | some ex =>
          cases ex with
          | error u =>
              have hev : processStreamEvent st (.patch (some (.error u)))
                  = cbError st "Malformed JSON data in event stream" := by
                delta processStreamEvent
                rw [h, if_neg Bool.false_ne_true]
              rw [hev]
              simp [cbError, h,
                show cbTriggering (.patch (some (.error u))) = true from rfl,
                show shutsDown (.patch (some (.error u))) = false from rfl]
          | ok p =>
              have hev : processStreamEvent st (.patch (some (.ok p)))
                  = (match routePath p.path with
                     | some (kind, _) => ⟨st.store.upsert kind p.data,
                         st.cbCalls, st.closed⟩
                     | none => st) := by
                delta processStreamEvent
                rw [h, if_neg Bool.false_ne_true]
              rw [hev]
              cases hr : routePath p.path with
              | none =>
                  simp [h, show cbTriggering (.patch (some (.ok p))) = false from rfl,
                    show shutsDown (.patch (some (.ok p))) = false from rfl]
              | some kk =>
                  obtain ⟨kind2, key2⟩ := kk
                  simp [h, show cbTriggering (.patch (some (.ok p))) = false from rfl,
                    show shutsDown (.patch (some (.ok p))) = false from rfl]
  | delete e =>
      cases e with
      | none =>
          have hev : processStreamEvent st (.delete none)
              = cbError st "Unexpected payload from event stream" := by
            delta processStreamEvent
            rw [h, if_neg Bool.false_ne_true]
          rw [hev]
          simp [cbError, h, show cbTriggering (.delete none) = true from rfl,
            show shutsDown (.delete none) = false from rfl]
      | some ex =>
          cases ex with
          | error u =>
              have hev : processStreamEvent st (.delete (some (.error u)))
                  = cbError st "Malformed JSON data in event stream" := by
                delta processStreamEvent
                rw [h, if_neg Bool.false_ne_true]
              rw [hev]
              simp [cbError, h,
                show cbTriggering (.delete (some (.error u))) = true from rfl,
                show shutsDown (.delete (some (.error u))) = false from rfl]
          | ok d =>
              have hev : processStreamEvent st (.delete (some (.ok d)))
                  = (match routePath d.path with
                     | some (kind, key) => ⟨st.store.delete kind key d.version,
                         st.cbCalls, st.closed⟩
                     | none => st) := by
                delta processStreamEvent
                rw [h, if_neg Bool.false_ne_true]
              rw [hev]
              cases hr : routePath d.path with
              | none =>
                  simp [h, show cbTriggering (.delete (some (.ok d))) = false from rfl,
                    show shutsDown (.delete (some (.ok d))) = false from rfl]
              | some kk =>
                  obtain ⟨kind2, key2⟩ := kk
                  simp [h, show cbTriggering (.delete (some (.ok d))) = false from rfl,
                    show shutsDown (.delete (some (.ok d))) = false from rfl]
  | indirectPut r =>
      cases r with
      | error e =>
          have hev : processStreamEvent st (.indirectPut (.error e))
              = cbError st e := by
            delta processStreamEvent
            rw [h, if_neg Bool.false_ne_true]
          rw [hev]
          simp [cbError, h,
            show cbTriggering (.indirectPut (.error e)) = true from rfl,
            show shutsDown (.indirectPut (.error e)) = false from rfl]
      | ok d =>
          have hev : processStreamEvent st (.indirectPut (.ok d))
              = ⟨st.store.init [("features", d.flags), ("segments", d.segments)],
                  st.cbCalls ++ [none], st.closed⟩ := by
            delta processStreamEvent
            rw [h, if_neg Bool.false_ne_true]
          rw [hev]
          simp [h, show cbTriggering (.indirectPut (.ok d)) = true from rfl,
            show shutsDown (.indirectPut (.ok d)) = false from rfl]
  | indirectPatch p r =>
      cases p with
      | none =>
          have hev : processStreamEvent st (.indirectPatch none r)
              = cbError st "Unexpected payload from event stream" := by
            delta processStreamEvent
            rw [h, if_neg Bool.false_ne_true]
          rw [hev]
          simp [cbError, h,
            show cbTriggering (.indirectPatch none r) = true from rfl,
            show shutsDown (.indirectPatch none r) = false from rfl]
      | some path =>
          cases r with
          | error e =>
              have hev : processStreamEvent st (.indirectPatch (some path) (.error e))
                  = (match routePath path with
                     | some (kind, key) => cbError st
                         ("Unexpected error requesting " ++ key ++ " in " ++ kind.nspace)
                     | none => st) := by
                delta processStreamEvent
                rw [h, if_neg Bool.false_ne_true]
              have ht : cbTriggering (.indirectPatch (some path) (.error e))
                  = ((routePath path).isSome && true) := rfl
              rw [hev, ht]
              cases hr : routePath path with
              | none =>
                  simp [h,
                    show shutsDown (.indirectPatch (some path) (.error e)) = false from rfl]
              | some kk =>
                  obtain ⟨kind2, key2⟩ := kk
                  simp [cbError, h,
                    show shutsDown (.indirectPatch (some path) (.error e)) = false from rfl]
          | ok item =>
              have hev : processStreamEvent st (.indirectPatch (some path) (.ok item))
                  = (match routePath path with
                     | some (kind, _) => ⟨st.store.upsert kind item,
                         st.cbCalls, st.closed⟩
                     | none => st) := by
                delta processStreamEvent
                rw [h, if_neg Bool.false_ne_true]
              have ht : cbTriggering (.indirectPatch (some path) (.ok item))
                  = ((routePath path).isSome && false) := rfl
              rw [hev, ht]
              cases hr : routePath path with
              | none =>
                  simp [h,
                    show shutsDown (.indirectPatch (some path) (.ok item)) = false from rfl]
              | some kk =>
                  obtain ⟨kind2, key2⟩ := kk
                  simp [h,
                    show shutsDown (.indirectPatch (some path) (.ok item)) = false from rfl]
  | streamError status =>
      cases status with
      | none =>
          have hev : processStreamEvent st (.streamError none) = st := by
            delta processStreamEvent
            rw [h, if_neg Bool.false_ne_true]
          rw [hev]
          simp [h, show cbTriggering (.streamError none) = false from rfl,
            show shutsDown (.streamError none) = false from rfl]
      | some sc =>
          have hev : processStreamEvent st (.streamError (some sc))
              = (if sc != 0 && !isHttpErrorRecoverable sc then
                  ⟨st.store, st.cbCalls ++ [some "LDStreamingError"], true⟩
                 else st) := by
            delta processStreamEvent
            rw [h, if_neg Bool.false_ne_true]
          have ht : cbTriggering (.streamError (some sc))
              = (sc != 0 && !isHttpErrorRecoverable sc) := rfl
          have hs : shutsDown (.streamError (some sc))
              = (sc != 0 && !isHttpErrorRecoverable sc) := rfl
          rw [hev, ht, hs]
          by_cases hcond : (sc != 0 && !isHttpErrorRecoverable sc) = true
          · simp [hcond, h]
          · have hcond2 : (sc != 0 && !isHttpErrorRecoverable sc) = false := by
              cases hb : sc != 0 && !isHttpErrorRecoverable sc with
              | false => rfl
              | true => exact absurd hb hcond
            simp [hcond2, h]

theorem foldl_stream_closed (events : List StreamEvent) :
    ∀ st : StreamState, st.closed = true →
      events.foldl processStreamEvent st = st := by
  induction events with
  | nil => intro st _; rfl
  | cons e rest ih =>
      intro st h
      rw [List.foldl_cons, processStreamEvent_closed st e h]
      exact ih st h

theorem runStream_cb_len_aux (events : List StreamEvent) :
    ∀ st : StreamState, st.closed = false →
      (events.foldl processStreamEvent st).cbCalls.length =
        st.cbCalls.length + countCb events := by
  induction events with
  | nil => intro st _; rfl
  | cons e rest ih =>
      intro st h
      rw [List.foldl_cons]
      obtain ⟨hlen, hclosed⟩ := processStreamEvent_cb_closed st e h
      by_cases hs : shutsDown e = true
      · rw [foldl_stream_closed rest _ (hclosed.trans hs), hlen]
        simp only [countCb, hs, if_true]
        omega
      · have hs' : shutsDown e = false := by
          cases hb : shutsDown e with
          | false => rfl
          | true => exact absurd hb hs
        rw [ih _ (hclosed.trans hs'), hlen]
        simp only [countCb, hs', if_false, Bool.false_eq_true]
        omega

/-- **C9** (amended).  Over any input sequence, the number of `start`
callback invocations equals `countCb`: one per triggering input — every
`put`/`indirect put`, including repeated successful ones, every malformed
or missing payload, every failed indirect-patch request, and the
non-recoverable error — counted up to and including the first input that
shuts the connection down, rather than once overall. -/
theorem stream_cb_count (events : List StreamEvent) :
    (runStream events).cbCalls.length = countCb events := by
  have h := runStream_cb_len_aux events {} rfl
  simpa using h

theorem stream_cb_twice_counterexample :
    (runStream [.put (some (.ok {})), .put (some (.ok {}))]).cbCalls = [none, none]
    ∧ (runStream [.put (some (.ok {})), .put (some (.ok {}))]).cbCalls.length ≠ 1 :=
  ⟨rfl, by decide⟩
